import Mathlib

set_option maxRecDepth 100000

/-!
# Verification of the lenacrypt cryptographic library

Shallow embedding of the Python sources `src/lenacrypt/{prime,rand,aes,rsa}.py`
into Lean 4, together with proofs and refutations of the specification claims.

Conventions:
* Python `bytes` values become `List Nat` with every entry `< 256`.
* Python arbitrary-precision non-negative integers become `Nat`.
* Functions that may `raise` become `Except String _`.
* Randomness is made explicit: random draws are passed as arguments
  (lists or streams of drawn values), and claims quantify over all draws.
* Python `while` loops are modelled with an explicit fuel argument chosen
  large enough to cover every terminating run; this keeps every definition
  computable by the kernel.
-/

namespace LenaCrypt

/-! ## Python's built-in three-argument `pow(b, e, n)` (modular exponentiation).

Python computes `b ** e mod n` by fast exponentiation; we model it the same
way (so that concrete evaluations are feasible) and prove it equal to
`b ^ e % n`. -/

def powModAux : Nat → Nat → Nat → Nat → Nat
  | 0, _b, _e, n => 1 % n
  | fuel+1, b, e, n =>
    if e = 0 then 1 % n
    else
      let r := powModAux fuel (b * b % n) (e / 2) n
      if e % 2 = 1 then r * b % n else r

/-- `pow(b, e, n)` for `e, n ≥ 0`, `n > 0`: modular exponentiation. -/
def powMod (b e n : Nat) : Nat := powModAux e b e n

theorem powModAux_eq (fuel : Nat) :
    ∀ b e n, 0 < n → e ≤ fuel → powModAux fuel b e n = b ^ e % n := by
  induction fuel with
  | zero =>
    intro b e n hn he
    have : e = 0 := Nat.le_zero.mp he
    subst this
    simp [powModAux]
  | succ f ih =>
    intro b e n hn he
    by_cases h0 : e = 0
    · subst h0; simp [powModAux]
    · have h1 : 1 ≤ e := Nat.one_le_iff_ne_zero.mpr h0
      have he2 : e / 2 ≤ f := by omega
      simp only [powModAux, if_neg h0]
      rw [ih (b * b % n) (e / 2) n hn he2]
      have hbase : (b * b % n) ^ (e / 2) % n = b ^ (2 * (e / 2)) % n := by
        rw [← Nat.pow_mod, two_mul, pow_add, mul_pow]
      by_cases hodd : e % 2 = 1
      · have he' : e = 2 * (e / 2) + 1 := by omega
        simp only [if_pos hodd]
        rw [hbase, Nat.mod_mul_mod]
        conv_rhs => rw [he']
        rw [pow_succ]
      · have hev : e % 2 = 0 := by omega
        have he' : e = 2 * (e / 2) := by omega
        simp only [hodd, if_false]
        rw [hbase, ← he']

theorem powMod_eq (b e n : Nat) (hn : 0 < n) : powMod b e n = b ^ e % n :=
  powModAux_eq e b e n hn le_rfl

/-! ## `prime.py` -/

/-- The table of the first 25 primes used for trial division
(`PRIMES` in `prime.py`). -/
def PRIMES : List Nat :=
  [2, 3, 5, 7, 11, 13, 17, 19, 23, 29, 31, 37, 41, 43, 47, 53, 59, 61, 67,
   71, 73, 79, 83, 89, 97]

/-- The trial-division prefix of `miller_rabin`: scan the prime table;
an exact match certifies primality, a divisor certifies compositeness,
otherwise the scan is inconclusive (`none`). -/
def tableCheck (p : Nat) : List Nat → Option Bool
  | [] => none
  | n :: rest =>
    if p = n then some true
    else if p % n = 0 then some false
    else tableCheck p rest

/-- The loop `while p_1 & 1 == 0: s += 1; p_1 //= 2` from `miller_rabin`,
with fuel.  Returns `(s, d)` where the original `n` is `2 ^ s * d`. -/
def factor2Aux : Nat → Nat → Nat → Nat × Nat
  | 0, s, n => (s, n)
  | fuel+1, s, n =>
    if n % 2 = 0 then factor2Aux fuel (s + 1) (n / 2) else (s, n)

/-- Write `n = 2 ^ s * d` with `d` odd (for `n > 0`). -/
def factor2 (n : Nat) : Nat × Nat := factor2Aux n 0 n

/-- The inner witness loop of `miller_rabin`: starting from `x`, square
modulo `p` up to `count` times; `true` means some square equals `p - 1`
(the round passes), `false` means the loop ran out (composite). -/
def mrInner (p : Nat) : Nat → Nat → Bool
  | 0, _x => false
  | count+1, x =>
    let x' := powMod x 2 p
    if x' = p - 1 then true else mrInner p count x'

/-- The outer rounds of `miller_rabin`, one entry of `bases` per round
(the Python code draws each base as `secrets.randbelow(p - 1) + 1`). -/
def mrRounds (p s d : Nat) : List Nat → Bool
  | [] => true
  | a :: rest =>
    let x := powMod a d p
    if x = 1 ∨ x = p - 1 then mrRounds p s d rest
    else if mrInner p (s - 1) x then mrRounds p s d rest
    else false

/-- `miller_rabin(p, rounds)` from `prime.py`, with the random base draws
made explicit: `bases` lists the value `secrets.randbelow(p - 1) + 1`
drawn in each of the `rounds` iterations of the main loop. -/
def millerRabinWith (p : Nat) (bases : List Nat) : Bool :=
  if p < 2 then false
  else
    match tableCheck p PRIMES with
    | some b => b
    | none =>
      let sd := factor2 (p - 1)
      mrRounds p sd.1 sd.2 bases

/-! ## `rand.py` -/

/-- One iteration of the candidate loop of `random_prime`.  The stream `f`
makes the random draws explicit: on attempt `idx` the Python code draws
`randint(2 ** (length - 2), 2 ** (length - 1) - 1)`, modelled as `(f idx).1`,
and `miller_rabin` draws its random bases, modelled as `(f idx).2`.
The fuel counts the remaining retries. -/
def randomPrimeLoop (f : Nat → Nat × List Nat) : Nat → Nat → Except String Nat
  | _idx, 0 => Except.error "Could not find a random prime within the retry limit."
  | idx, fuel+1 =>
    let p := 2 * (f idx).1 + 1
    if millerRabinWith p (f idx).2 then Except.ok p
    else randomPrimeLoop f (idx + 1) fuel

/-- `random_prime(length, miller_rounds, max_retries)` from `rand.py`,
with the random draws passed as the stream `f`. -/
def random_prime (length : Nat) (_millerRounds maxRetries : Nat)
    (f : Nat → Nat × List Nat) : Except String Nat :=
  if length < 4 then Except.error "Length must be at least 4."
  else randomPrimeLoop f 0 maxRetries

/-- The draws the secure random source can actually produce when
`random_prime(length, millerRounds, _)` runs: each candidate sample lies in
`[2^(length-2), 2^(length-1) - 1]`, and each Miller–Rabin round draws
`millerRounds` bases `secrets.randbelow(p - 1) + 1 ∈ [1, p - 1]` for the
candidate `p = 2·sample + 1` of its attempt. -/
def DrawsValid (length millerRounds : Nat) (f : Nat → Nat × List Nat) : Prop :=
  ∀ i, 2 ^ (length - 2) ≤ (f i).1 ∧ (f i).1 ≤ 2 ^ (length - 1) - 1 ∧
    (f i).2.length = millerRounds ∧
    ∀ a ∈ (f i).2, 1 ≤ a ∧ a < 2 * (f i).1 + 1

/-! ## `aes.py`: tables, `gmul`, key expansion -/

/-- The AES S-box table `SBOX` from `aes.py`. -/
def SBOX : List Nat :=
  [99, 124, 119, 123, 242, 107, 111, 197, 48, 1, 103, 43, 254, 215, 171, 118,
   202, 130, 201, 125, 250, 89, 71, 240, 173, 212, 162, 175, 156, 164, 114, 192,
   183, 253, 147, 38, 54, 63, 247, 204, 52, 165, 229, 241, 113, 216, 49, 21,
   4, 199, 35, 195, 24, 150, 5, 154, 7, 18, 128, 226, 235, 39, 178, 117,
   9, 131, 44, 26, 27, 110, 90, 160, 82, 59, 214, 179, 41, 227, 47, 132,
   83, 209, 0, 237, 32, 252, 177, 91, 106, 203, 190, 57, 74, 76, 88, 207,
   208, 239, 170, 251, 67, 77, 51, 133, 69, 249, 2, 127, 80, 60, 159, 168,
   81, 163, 64, 143, 146, 157, 56, 245, 188, 182, 218, 33, 16, 255, 243, 210,
   205, 12, 19, 236, 95, 151, 68, 23, 196, 167, 126, 61, 100, 93, 25, 115,
   96, 129, 79, 220, 34, 42, 144, 136, 70, 238, 184, 20, 222, 94, 11, 219,
   224, 50, 58, 10, 73, 6, 36, 92, 194, 211, 172, 98, 145, 149, 228, 121,
   231, 200, 55, 109, 141, 213, 78, 169, 108, 86, 244, 234, 101, 122, 174, 8,
   186, 120, 37, 46, 28, 166, 180, 198, 232, 221, 116, 31, 75, 189, 139, 138,
   112, 62, 181, 102, 72, 3, 246, 14, 97, 53, 87, 185, 134, 193, 29, 158,
   225, 248, 152, 17, 105, 217, 142, 148, 155, 30, 135, 233, 206, 85, 40, 223,
   140, 161, 137, 13, 191, 230, 66, 104, 65, 153, 45, 15, 176, 84, 187, 22]

/-- `INV_SBOX = [SBOX.index(i) for i in range(256)]` from `aes.py`. -/
def INV_SBOX : List Nat := (List.range 256).map (fun i => SBOX.indexOf i)

/-- The round-constant table `RCON` from `aes.py`. -/
def RCON : List Nat :=
  [0, 1, 2, 4, 8, 16, 32, 64, 128, 27, 54, 108, 216, 171, 77, 154, 47, 94,
   188, 99, 198, 151, 53, 106, 212, 179, 125, 250, 239, 197, 145, 57]

/-- `bytes([SBOX[b] for b in word])`. -/
def SBOXsub (w : List Nat) : List Nat := w.map (fun b => SBOX.getD b 0)

/-- `rotate(word) = word[1:] + word[:1]` from `aes.py`. -/
def rotate (word : List Nat) : List Nat := word.drop 1 ++ word.take 1

/-- The 8-step shift-and-add loop of `gmul` from `aes.py`:
`p` is the accumulator, `a` and `b` the loop variables.  Python leaves `a`
unmasked after the shift; the final result is masked with `& 0xff`,
exactly as the source does. -/
def gmulAux : Nat → Nat → Nat → Nat → Nat
  | 0, p, _a, _b => p &&& 0xff
  | k+1, p, a, b =>
    let p' := if b &&& 1 = 1 then p ^^^ a else p
    let a' := if a &&& 0x80 ≠ 0 then (a <<< 1) ^^^ 0x1b else a <<< 1
    gmulAux k p' a' (b >>> 1)

/-- `gmul(a, b)`: GF(2^8) multiplication from `aes.py`. -/
def gmul (a b : Nat) : Nat := gmulAux 8 0 a b

/-- `schedule_core(word, i)` from `aes.py`: rotate, substitute through the
S-box, and XOR the first byte with the round constant `RCON[i]`. -/
def schedule_core (word : List Nat) (i : Nat) : List Nat :=
  match SBOXsub (rotate word) with
  | [] => []
  | b :: rest => (b ^^^ RCON.getD i 0) :: rest

/-- The `while len(expanded_key) < (num_rounds + 1) * key_byte_length` loop of
`expand_key`, with fuel.  Each iteration takes the last four bytes `t`,
transforms them at schedule-core positions (and at the mid-block position of
32-byte keys), and appends `expanded_key[-key_byte_length + a] ^ t[a]` for
`a = 0..3`; since `key_byte_length > 4`, those four back-references land in
the part of the list that existed before the iteration, which is what the
`base`/`zipWith` formulation expresses. -/
def expandLoop (kbl target : Nat) : Nat → List Nat → Nat → List Nat
  | 0, ek, _i => ek
  | fuel+1, ek, i =>
    if ek.length < target then
      let ti :=
        if ek.length % kbl = 0 then (schedule_core (ek.drop (ek.length - 4)) i, i + 1)
        else (ek.drop (ek.length - 4), i)
      let t := if kbl = 32 ∧ ek.length % kbl = 16 then SBOXsub ti.1 else ti.1
      let base := (ek.drop (ek.length - kbl)).take 4
      expandLoop kbl target fuel (ek ++ List.zipWith (· ^^^ ·) base t) ti.2
    else ek

/-- `expand_key(key)` from `aes.py`: validate the key size, run the expansion
loop until `(num_rounds + 1) * key_byte_length` bytes exist, and truncate to
176/208/240 bytes. -/
def expand_key (key : List Nat) : Except String (List Nat) :=
  let kbl := key.length
  if kbl = 16 ∨ kbl = 24 ∨ kbl = 32 then
    let numRounds : Nat := if kbl = 16 then 10 else if kbl = 24 then 12 else 14
    let target := (numRounds + 1) * kbl
    let ek := expandLoop kbl target target key 1
    Except.ok (ek.take (if kbl = 16 then 176 else if kbl = 24 then 208 else 240))
  else Except.error "Invalid key size"

/-! ## `rsa.py`: the key structures and raw encrypt/decrypt -/

/-- The `RSAkey` entity: modulus `n`, public exponent `e`, private
exponent `d`. -/
structure RSAkey where
  n : Nat
  e : Nat
  d : Nat
deriving DecidableEq, Repr

/-- The `RSApubkey` entity: only `(n, e)` are stored. -/
structure RSApubkey where
  n : Nat
  e : Nat
deriving DecidableEq, Repr

/-- `RSAkey._encrypt` from `rsa.py`: raise when `m > n`, otherwise return
`pow(m, e, n)`. -/
def rsaEncrypt (k : RSAkey) (m : Nat) : Except String Nat :=
  if m > k.n then Except.error "Message too large for encryption."
  else Except.ok (powMod m k.e k.n)

/-- `RSAkey._decrypt` from `rsa.py`: return `pow(c, d, n)`. -/
def rsaDecrypt (k : RSAkey) (c : Nat) : Nat := powMod c k.d k.n

/-! ## The published key-schedule test vectors

The four byte strings from `TestAES.test_aes_key_expansion` in `aes.py`
(test vectors from samiam.org/key-schedule.html); in each, the first
16/24/32 bytes are the key and the whole string is its expansion. -/

def ksVec128a : List Nat :=
  [73, 32, 226, 153, 165, 32, 82, 97, 100, 105, 111, 71, 97, 116, 117, 110,
   218, 189, 125, 118, 127, 157, 47, 23, 27, 244, 64, 80, 122, 128, 53, 62,
   21, 43, 207, 172, 106, 182, 224, 187, 113, 66, 160, 235, 11, 194, 149, 213,
   52, 1, 204, 135, 94, 183, 44, 60, 47, 245, 140, 215, 36, 55, 25, 2,
   166, 213, 187, 177, 248, 98, 151, 141, 215, 151, 27, 90, 243, 160, 2, 88,
   86, 162, 209, 188, 174, 192, 70, 49, 121, 87, 93, 107, 138, 247, 95, 51,
   30, 109, 18, 194, 176, 173, 84, 243, 201, 250, 9, 152, 67, 13, 86, 171,
   137, 220, 112, 216, 57, 113, 36, 43, 240, 139, 45, 179, 179, 134, 123, 24,
   77, 253, 221, 181, 116, 140, 249, 158, 132, 7, 212, 45, 55, 129, 175, 53,
   90, 132, 75, 47, 46, 8, 178, 177, 170, 15, 102, 156, 157, 142, 201, 169,
   117, 89, 152, 113, 91, 81, 42, 192, 241, 94, 76, 92, 108, 208, 133, 245]

def ksVec128b : List Nat :=
  [0, 1, 2, 3, 4, 5, 6, 7, 8, 9, 10, 11, 12, 13, 14, 15,
   214, 170, 116, 253, 210, 175, 114, 250, 218, 166, 120, 241, 214, 171, 118, 254,
   182, 146, 207, 11, 100, 61, 189, 241, 190, 155, 197, 0, 104, 48, 179, 254,
   182, 255, 116, 78, 210, 194, 201, 191, 108, 89, 12, 191, 4, 105, 191, 65,
   71, 247, 247, 188, 149, 53, 62, 3, 249, 108, 50, 188, 253, 5, 141, 253,
   60, 170, 163, 232, 169, 159, 157, 235, 80, 243, 175, 87, 173, 246, 34, 170,
   94, 57, 15, 125, 247, 166, 146, 150, 167, 85, 61, 193, 10, 163, 31, 107,
   20, 249, 112, 26, 227, 95, 226, 140, 68, 10, 223, 77, 78, 169, 192, 38,
   71, 67, 135, 53, 164, 28, 101, 185, 224, 22, 186, 244, 174, 191, 122, 210,
   84, 153, 50, 209, 240, 133, 87, 104, 16, 147, 237, 156, 190, 44, 151, 78,
   19, 17, 29, 127, 227, 148, 74, 23, 243, 7, 167, 139, 77, 43, 48, 197]

def ksVec192 : List Nat :=
  [0, 1, 2, 3, 4, 5, 6, 7, 8, 9, 10, 11, 12, 13, 14, 15,
   16, 17, 18, 19, 20, 21, 22, 23, 88, 70, 242, 249, 92, 67, 244, 254,
   84, 74, 254, 245, 88, 71, 240, 250, 72, 86, 226, 233, 92, 67, 244, 254,
   64, 249, 73, 179, 28, 186, 189, 77, 72, 240, 67, 184, 16, 183, 179, 66,
   88, 225, 81, 171, 4, 162, 165, 85, 126, 255, 181, 65, 98, 69, 8, 12,
   42, 181, 75, 180, 58, 2, 248, 246, 98, 227, 169, 93, 102, 65, 12, 8,
   245, 1, 133, 114, 151, 68, 141, 126, 189, 241, 198, 202, 135, 243, 62, 60,
   229, 16, 151, 97, 131, 81, 155, 105, 52, 21, 124, 158, 163, 81, 241, 224,
   30, 160, 55, 42, 153, 83, 9, 22, 124, 67, 158, 119, 255, 18, 5, 30,
   221, 126, 14, 136, 126, 47, 255, 104, 96, 143, 200, 66, 249, 220, 193, 84,
   133, 159, 95, 35, 122, 141, 90, 61, 192, 192, 41, 82, 190, 239, 214, 58,
   222, 96, 30, 120, 39, 188, 223, 44, 162, 35, 128, 15, 216, 174, 218, 50,
   164, 151, 10, 51, 26, 120, 220, 9, 196, 24, 194, 113, 227, 164, 29, 93]

def ksVec256 : List Nat :=
  [0, 1, 2, 3, 4, 5, 6, 7, 8, 9, 10, 11, 12, 13, 14, 15,
   16, 17, 18, 19, 20, 21, 22, 23, 24, 25, 26, 27, 28, 29, 30, 31,
   165, 115, 194, 159, 161, 118, 196, 152, 169, 127, 206, 147, 165, 114, 192, 156,
   22, 81, 168, 205, 2, 68, 190, 218, 26, 93, 164, 193, 6, 64, 186, 222,
   174, 135, 223, 240, 15, 241, 27, 104, 166, 142, 213, 251, 3, 252, 21, 103,
   109, 225, 241, 72, 111, 165, 79, 146, 117, 248, 235, 83, 115, 184, 81, 141,
   198, 86, 130, 127, 201, 167, 153, 23, 111, 41, 76, 236, 108, 213, 89, 139,
   61, 226, 58, 117, 82, 71, 117, 231, 39, 191, 158, 180, 84, 7, 207, 57,
   11, 220, 144, 95, 194, 123, 9, 72, 173, 82, 69, 164, 193, 135, 28, 47,
   69, 245, 166, 96, 23, 178, 211, 135, 48, 13, 77, 51, 100, 10, 130, 10,
   124, 207, 247, 28, 190, 180, 254, 84, 19, 230, 187, 240, 210, 97, 167, 223,
   240, 26, 250, 254, 231, 168, 41, 121, 215, 165, 100, 74, 179, 175, 230, 64,
   37, 65, 254, 113, 155, 245, 0, 37, 136, 19, 187, 213, 90, 114, 28, 10,
   78, 90, 102, 153, 169, 242, 79, 224, 126, 87, 43, 170, 205, 248, 205, 234,
   36, 252, 121, 204, 191, 9, 121, 233, 55, 26, 194, 60, 109, 104, 222, 54]


/-! ## `aes.py`: the state matrix and the four round transforms -/
/-- `state[i][j]` (row `i`, column `j`), with defaults for out-of-range. -/
def getRC (s : List (List Nat)) (i j : Nat) : Nat := (s.getD i []).getD j 0

/-- `[list(block[i:i+4]) for i in range(0, 16, 4)]`: a 16-byte string as a
row-major 4×4 matrix (also `[rk[j:j+4] for j in range(0, 16, 4)]`). -/
def toMatrix (block : List Nat) : List (List Nat) :=
  (List.range 4).map (fun i => (block.drop (4 * i)).take 4)

/-- `bytes([state[i][j] for i in range(4) for j in range(4)])`. -/
def unloadState (s : List (List Nat)) : List Nat :=
  ((List.range 4).map (fun i => (List.range 4).map (fun j => getRC s i j))).flatten

def add_round_key (s k : List (List Nat)) : List (List Nat) :=
  (List.range 4).map (fun i => (List.range 4).map (fun j => getRC s i j ^^^ getRC k i j))

def sub_bytes (s : List (List Nat)) : List (List Nat) :=
  (List.range 4).map (fun i => (List.range 4).map (fun j => SBOX.getD (getRC s i j) 0))

def inv_sub_bytes (s : List (List Nat)) : List (List Nat) :=
  (List.range 4).map (fun i => (List.range 4).map (fun j => INV_SBOX.getD (getRC s i j) 0))

def shift_rows (s : List (List Nat)) : List (List Nat) :=
  (List.range 4).map (fun i => (s.getD i []).drop i ++ (s.getD i []).take i)

def inv_shift_rows (s : List (List Nat)) : List (List Nat) :=
  (List.range 4).map (fun i =>
    (s.getD i []).drop ((s.getD i []).length - i) ++
    (s.getD i []).take ((s.getD i []).length - i))

def mixCol (s : List (List Nat)) (i : Nat) : List Nat :=
  [gmul (getRC s 0 i) 2 ^^^ gmul (getRC s 1 i) 3 ^^^ getRC s 2 i ^^^ getRC s 3 i,
   getRC s 0 i ^^^ gmul (getRC s 1 i) 2 ^^^ gmul (getRC s 2 i) 3 ^^^ getRC s 3 i,
   getRC s 0 i ^^^ getRC s 1 i ^^^ gmul (getRC s 2 i) 2 ^^^ gmul (getRC s 3 i) 3,
   gmul (getRC s 0 i) 3 ^^^ getRC s 1 i ^^^ getRC s 2 i ^^^ gmul (getRC s 3 i) 2]

def mix_columns (s : List (List Nat)) : List (List Nat) :=
  (List.range 4).map (fun j => (List.range 4).map (fun i => (mixCol s i).getD j 0))

def invMixCol (s : List (List Nat)) (i : Nat) : List Nat :=
  [gmul (getRC s 0 i) 14 ^^^ gmul (getRC s 1 i) 11 ^^^ gmul (getRC s 2 i) 13 ^^^ gmul (getRC s 3 i) 9,
   gmul (getRC s 0 i) 9 ^^^ gmul (getRC s 1 i) 14 ^^^ gmul (getRC s 2 i) 11 ^^^ gmul (getRC s 3 i) 13,
   gmul (getRC s 0 i) 13 ^^^ gmul (getRC s 1 i) 9 ^^^ gmul (getRC s 2 i) 14 ^^^ gmul (getRC s 3 i) 11,
   gmul (getRC s 0 i) 11 ^^^ gmul (getRC s 1 i) 13 ^^^ gmul (getRC s 2 i) 9 ^^^ gmul (getRC s 3 i) 14]

def inv_mix_columns (s : List (List Nat)) : List (List Nat) :=
  (List.range 4).map (fun j => (List.range 4).map (fun i => (invMixCol s i).getD j 0))

/-! ### Evaluation of each transform on an explicit 4×4 state

Each of the following is definitional (`rfl`); they spell out what the
`List.range`-based definitions compute on a destructured state. -/

theorem mix_columns_eval (a0 a1 a2 a3 a4 a5 a6 a7 a8 a9 a10 a11 a12 a13 a14 a15 : Nat) :
    mix_columns [[a0, a1, a2, a3], [a4, a5, a6, a7], [a8, a9, a10, a11], [a12, a13, a14, a15]] =
    [[gmul a0 2 ^^^ gmul a4 3 ^^^ a8 ^^^ a12,
      gmul a1 2 ^^^ gmul a5 3 ^^^ a9 ^^^ a13,
      gmul a2 2 ^^^ gmul a6 3 ^^^ a10 ^^^ a14,
      gmul a3 2 ^^^ gmul a7 3 ^^^ a11 ^^^ a15],
     [a0 ^^^ gmul a4 2 ^^^ gmul a8 3 ^^^ a12,
      a1 ^^^ gmul a5 2 ^^^ gmul a9 3 ^^^ a13,
      a2 ^^^ gmul a6 2 ^^^ gmul a10 3 ^^^ a14,
      a3 ^^^ gmul a7 2 ^^^ gmul a11 3 ^^^ a15],
     [a0 ^^^ a4 ^^^ gmul a8 2 ^^^ gmul a12 3,
      a1 ^^^ a5 ^^^ gmul a9 2 ^^^ gmul a13 3,
      a2 ^^^ a6 ^^^ gmul a10 2 ^^^ gmul a14 3,
      a3 ^^^ a7 ^^^ gmul a11 2 ^^^ gmul a15 3],
     [gmul a0 3 ^^^ a4 ^^^ a8 ^^^ gmul a12 2,
      gmul a1 3 ^^^ a5 ^^^ a9 ^^^ gmul a13 2,
      gmul a2 3 ^^^ a6 ^^^ a10 ^^^ gmul a14 2,
      gmul a3 3 ^^^ a7 ^^^ a11 ^^^ gmul a15 2]] := rfl

theorem inv_mix_columns_eval (a0 a1 a2 a3 a4 a5 a6 a7 a8 a9 a10 a11 a12 a13 a14 a15 : Nat) :
    inv_mix_columns [[a0, a1, a2, a3], [a4, a5, a6, a7], [a8, a9, a10, a11], [a12, a13, a14, a15]] =
    [[gmul a0 14 ^^^ gmul a4 11 ^^^ gmul a8 13 ^^^ gmul a12 9,
      gmul a1 14 ^^^ gmul a5 11 ^^^ gmul a9 13 ^^^ gmul a13 9,
      gmul a2 14 ^^^ gmul a6 11 ^^^ gmul a10 13 ^^^ gmul a14 9,
      gmul a3 14 ^^^ gmul a7 11 ^^^ gmul a11 13 ^^^ gmul a15 9],
     [gmul a0 9 ^^^ gmul a4 14 ^^^ gmul a8 11 ^^^ gmul a12 13,
      gmul a1 9 ^^^ gmul a5 14 ^^^ gmul a9 11 ^^^ gmul a13 13,
      gmul a2 9 ^^^ gmul a6 14 ^^^ gmul a10 11 ^^^ gmul a14 13,
      gmul a3 9 ^^^ gmul a7 14 ^^^ gmul a11 11 ^^^ gmul a15 13],
     [gmul a0 13 ^^^ gmul a4 9 ^^^ gmul a8 14 ^^^ gmul a12 11,
      gmul a1 13 ^^^ gmul a5 9 ^^^ gmul a9 14 ^^^ gmul a13 11,
      gmul a2 13 ^^^ gmul a6 9 ^^^ gmul a10 14 ^^^ gmul a14 11,
      gmul a3 13 ^^^ gmul a7 9 ^^^ gmul a11 14 ^^^ gmul a15 11],
     [gmul a0 11 ^^^ gmul a4 13 ^^^ gmul a8 9 ^^^ gmul a12 14,
      gmul a1 11 ^^^ gmul a5 13 ^^^ gmul a9 9 ^^^ gmul a13 14,
      gmul a2 11 ^^^ gmul a6 13 ^^^ gmul a10 9 ^^^ gmul a14 14,
      gmul a3 11 ^^^ gmul a7 13 ^^^ gmul a11 9 ^^^ gmul a15 14]] := rfl

theorem add_round_key_eval (a0 a1 a2 a3 a4 a5 a6 a7 a8 a9 a10 a11 a12 a13 a14 a15 b0 b1 b2 b3 b4 b5 b6 b7 b8 b9 b10 b11 b12 b13 b14 b15 : Nat) :
    add_round_key [[a0, a1, a2, a3], [a4, a5, a6, a7], [a8, a9, a10, a11], [a12, a13, a14, a15]] [[b0, b1, b2, b3], [b4, b5, b6, b7], [b8, b9, b10, b11], [b12, b13, b14, b15]] = [[a0 ^^^ b0, a1 ^^^ b1, a2 ^^^ b2, a3 ^^^ b3], [a4 ^^^ b4, a5 ^^^ b5, a6 ^^^ b6, a7 ^^^ b7], [a8 ^^^ b8, a9 ^^^ b9, a10 ^^^ b10, a11 ^^^ b11], [a12 ^^^ b12, a13 ^^^ b13, a14 ^^^ b14, a15 ^^^ b15]] := rfl

theorem sub_bytes_eval (a0 a1 a2 a3 a4 a5 a6 a7 a8 a9 a10 a11 a12 a13 a14 a15 : Nat) :
    sub_bytes [[a0, a1, a2, a3], [a4, a5, a6, a7], [a8, a9, a10, a11], [a12, a13, a14, a15]] = [[SBOX.getD a0 0, SBOX.getD a1 0, SBOX.getD a2 0, SBOX.getD a3 0], [SBOX.getD a4 0, SBOX.getD a5 0, SBOX.getD a6 0, SBOX.getD a7 0], [SBOX.getD a8 0, SBOX.getD a9 0, SBOX.getD a10 0, SBOX.getD a11 0], [SBOX.getD a12 0, SBOX.getD a13 0, SBOX.getD a14 0, SBOX.getD a15 0]] := rfl

theorem inv_sub_bytes_eval (a0 a1 a2 a3 a4 a5 a6 a7 a8 a9 a10 a11 a12 a13 a14 a15 : Nat) :
    inv_sub_bytes [[a0, a1, a2, a3], [a4, a5, a6, a7], [a8, a9, a10, a11], [a12, a13, a14, a15]] = [[INV_SBOX.getD a0 0, INV_SBOX.getD a1 0, INV_SBOX.getD a2 0, INV_SBOX.getD a3 0], [INV_SBOX.getD a4 0, INV_SBOX.getD a5 0, INV_SBOX.getD a6 0, INV_SBOX.getD a7 0], [INV_SBOX.getD a8 0, INV_SBOX.getD a9 0, INV_SBOX.getD a10 0, INV_SBOX.getD a11 0], [INV_SBOX.getD a12 0, INV_SBOX.getD a13 0, INV_SBOX.getD a14 0, INV_SBOX.getD a15 0]] := rfl

theorem shift_rows_eval (a0 a1 a2 a3 a4 a5 a6 a7 a8 a9 a10 a11 a12 a13 a14 a15 : Nat) :
    shift_rows [[a0, a1, a2, a3], [a4, a5, a6, a7], [a8, a9, a10, a11], [a12, a13, a14, a15]] = [[a0, a1, a2, a3], [a5, a6, a7, a4], [a10, a11, a8, a9], [a15, a12, a13, a14]] := rfl

theorem inv_shift_rows_eval (a0 a1 a2 a3 a4 a5 a6 a7 a8 a9 a10 a11 a12 a13 a14 a15 : Nat) :
    inv_shift_rows [[a0, a1, a2, a3], [a4, a5, a6, a7], [a8, a9, a10, a11], [a12, a13, a14, a15]] = [[a0, a1, a2, a3], [a7, a4, a5, a6], [a10, a11, a8, a9], [a13, a14, a15, a12]] := rfl

theorem toMatrix_eval (a0 a1 a2 a3 a4 a5 a6 a7 a8 a9 a10 a11 a12 a13 a14 a15 : Nat) :
    toMatrix [a0, a1, a2, a3, a4, a5, a6, a7, a8, a9, a10, a11, a12, a13, a14, a15] = [[a0, a1, a2, a3], [a4, a5, a6, a7], [a8, a9, a10, a11], [a12, a13, a14, a15]] := rfl

theorem unloadState_eval (a0 a1 a2 a3 a4 a5 a6 a7 a8 a9 a10 a11 a12 a13 a14 a15 : Nat) :
    unloadState [[a0, a1, a2, a3], [a4, a5, a6, a7], [a8, a9, a10, a11], [a12, a13, a14, a15]] = [a0, a1, a2, a3, a4, a5, a6, a7, a8, a9, a10, a11, a12, a13, a14, a15] := rfl


/-! ### GF(2^8) facts about `gmul` -/

theorem shiftLeft_xor_distrib (a b k : Nat) :
    (a ^^^ b) <<< k = a <<< k ^^^ b <<< k := by
  apply Nat.eq_of_testBit_eq
  intro i
  simp [Nat.testBit_shiftLeft, Nat.testBit_xor]
  by_cases h : k ≤ i <;> simp [h]

theorem xor_left_comm (a b c : Nat) : a ^^^ (b ^^^ c) = b ^^^ (a ^^^ c) := by
  rw [← Nat.xor_assoc, Nat.xor_comm a b, Nat.xor_assoc]

theorem and_128_cases (a : Nat) : a &&& 128 = 0 ∨ a &&& 128 = 128 := by
  have h := Nat.and_two_pow a 7
  norm_num at h
  cases hb : a.testBit 7 <;> rw [hb] at h <;> simp at h <;> omega

theorem xtime_xor (a1 a2 : Nat) :
    (if (a1 ^^^ a2) &&& 0x80 ≠ 0 then ((a1 ^^^ a2) <<< 1) ^^^ 0x1b
     else (a1 ^^^ a2) <<< 1) =
    (if a1 &&& 0x80 ≠ 0 then (a1 <<< 1) ^^^ 0x1b else a1 <<< 1) ^^^
    (if a2 &&& 0x80 ≠ 0 then (a2 <<< 1) ^^^ 0x1b else a2 <<< 1) := by
  have hd : (a1 ^^^ a2) &&& 128 = (a1 &&& 128) ^^^ (a2 &&& 128) :=
    Nat.and_xor_distrib_right
  have hs := shiftLeft_xor_distrib a1 a2 1
  rcases and_128_cases a1 with h1 | h1 <;> rcases and_128_cases a2 with h2 | h2 <;>
    simp only [show (0x80 : Nat) = 128 from rfl, h1, h2, hd] <;>
    norm_num <;>
    rw [hs] <;>
    simp [Nat.xor_assoc, Nat.xor_comm, xor_left_comm, Nat.xor_self, Nat.xor_zero, Nat.xor_cancel_left, Nat.xor_cancel_right]

theorem gmulAux_xor (k : Nat) :
    ∀ p1 p2 a1 a2 b, gmulAux k (p1 ^^^ p2) (a1 ^^^ a2) b =
      gmulAux k p1 a1 b ^^^ gmulAux k p2 a2 b := by
  induction k with
  | zero =>
    intro p1 p2 a1 a2 b
    exact Nat.and_xor_distrib_right
  | succ k ih =>
    intro p1 p2 a1 a2 b
    simp only [gmulAux]
    rw [xtime_xor]
    by_cases hb : b &&& 1 = 1
    · simp only [if_pos hb]
      rw [show p1 ^^^ p2 ^^^ (a1 ^^^ a2) = (p1 ^^^ a1) ^^^ (p2 ^^^ a2) by
        simp [Nat.xor_assoc, Nat.xor_comm, xor_left_comm]]
      exact ih _ _ _ _ _
    · simp only [if_neg hb]
      exact ih _ _ _ _ _

/-- `gmul` is GF(2)-linear in its first argument. -/
theorem gmul_xor_left (x y c : Nat) :
    gmul (x ^^^ y) c = gmul x c ^^^ gmul y c := by
  have h := gmulAux_xor 8 0 0 x y c
  simpa using h

theorem gmulAux_lt (k : Nat) : ∀ p a b, gmulAux k p a b < 256 := by
  induction k with
  | zero =>
    intro p a b
    have : p &&& 0xff ≤ 0xff := Nat.and_le_right
    simpa [gmulAux] using by omega
  | succ k ih =>
    intro p a b
    simp only [gmulAux]
    exact ih _ _ _

theorem gmul_lt (a b : Nat) : gmul a b < 256 := gmulAux_lt 8 0 a b

set_option maxRecDepth 100000 in
theorem mixG0all : ((List.range 256).all fun v =>
    (gmul (gmul v 2) 14 ^^^ gmul v 11 ^^^ gmul v 13 ^^^ gmul (gmul v 3) 9) == v) = true := by decide

theorem mixG0 (v : Nat) (hv : v < 256) :
    gmul (gmul v 2) 14 ^^^ gmul v 11 ^^^ gmul v 13 ^^^ gmul (gmul v 3) 9 = v := by
  have h := mixG0all
  rw [List.all_eq_true] at h
  have hm := h v (List.mem_range.mpr hv)
  simpa using hm

set_option maxRecDepth 100000 in
theorem mixG1all : ((List.range 256).all fun v =>
    (gmul (gmul v 3) 14 ^^^ gmul (gmul v 2) 11 ^^^ gmul v 13 ^^^ gmul v 9) == 0) = true := by decide

theorem mixG1 (v : Nat) (hv : v < 256) :
    gmul (gmul v 3) 14 ^^^ gmul (gmul v 2) 11 ^^^ gmul v 13 ^^^ gmul v 9 = 0 := by
  have h := mixG1all
  rw [List.all_eq_true] at h
  have hm := h v (List.mem_range.mpr hv)
  simpa using hm

set_option maxRecDepth 100000 in
theorem mixG2all : ((List.range 256).all fun v =>
    (gmul v 14 ^^^ gmul (gmul v 3) 11 ^^^ gmul (gmul v 2) 13 ^^^ gmul v 9) == 0) = true := by decide

theorem mixG2 (v : Nat) (hv : v < 256) :
    gmul v 14 ^^^ gmul (gmul v 3) 11 ^^^ gmul (gmul v 2) 13 ^^^ gmul v 9 = 0 := by
  have h := mixG2all
  rw [List.all_eq_true] at h
  have hm := h v (List.mem_range.mpr hv)
  simpa using hm

set_option maxRecDepth 100000 in
theorem mixG3all : ((List.range 256).all fun v =>
    (gmul v 14 ^^^ gmul v 11 ^^^ gmul (gmul v 3) 13 ^^^ gmul (gmul v 2) 9) == 0) = true := by decide

theorem mixG3 (v : Nat) (hv : v < 256) :
    gmul v 14 ^^^ gmul v 11 ^^^ gmul (gmul v 3) 13 ^^^ gmul (gmul v 2) 9 = 0 := by
  have h := mixG3all
  rw [List.all_eq_true] at h
  have hm := h v (List.mem_range.mpr hv)
  simpa using hm

theorem invmix_entry0 (w x y z : Nat) (hw : w < 256) (hx : x < 256)
    (hy : y < 256) (hz : z < 256) :
    gmul (gmul w 2 ^^^ gmul x 3 ^^^ y ^^^ z) 14 ^^^
    gmul (w ^^^ gmul x 2 ^^^ gmul y 3 ^^^ z) 11 ^^^
    gmul (w ^^^ x ^^^ gmul y 2 ^^^ gmul z 3) 13 ^^^
    gmul (gmul w 3 ^^^ x ^^^ y ^^^ gmul z 2) 9 = w := by
  simp only [gmul_xor_left]
  trans
    ((gmul (gmul w 2) 14 ^^^ gmul w 11 ^^^ gmul w 13 ^^^ gmul (gmul w 3) 9) ^^^
      (gmul (gmul x 3) 14 ^^^ gmul (gmul x 2) 11 ^^^ gmul x 13 ^^^ gmul x 9) ^^^
      (gmul y 14 ^^^ gmul (gmul y 3) 11 ^^^ gmul (gmul y 2) 13 ^^^ gmul y 9) ^^^
      (gmul z 14 ^^^ gmul z 11 ^^^ gmul (gmul z 3) 13 ^^^ gmul (gmul z 2) 9))
  · ac_rfl
  · rw [mixG0 w hw, mixG1 x hx, mixG2 y hy, mixG3 z hz]
    simp

theorem invmix_entry1 (w x y z : Nat) (hw : w < 256) (hx : x < 256)
    (hy : y < 256) (hz : z < 256) :
    gmul (gmul w 2 ^^^ gmul x 3 ^^^ y ^^^ z) 9 ^^^
    gmul (w ^^^ gmul x 2 ^^^ gmul y 3 ^^^ z) 14 ^^^
    gmul (w ^^^ x ^^^ gmul y 2 ^^^ gmul z 3) 11 ^^^
    gmul (gmul w 3 ^^^ x ^^^ y ^^^ gmul z 2) 13 = x := by
  simp only [gmul_xor_left]
  trans
    ((gmul w 14 ^^^ gmul w 11 ^^^ gmul (gmul w 3) 13 ^^^ gmul (gmul w 2) 9) ^^^
      (gmul (gmul x 2) 14 ^^^ gmul x 11 ^^^ gmul x 13 ^^^ gmul (gmul x 3) 9) ^^^
      (gmul (gmul y 3) 14 ^^^ gmul (gmul y 2) 11 ^^^ gmul y 13 ^^^ gmul y 9) ^^^
      (gmul z 14 ^^^ gmul (gmul z 3) 11 ^^^ gmul (gmul z 2) 13 ^^^ gmul z 9))
  · ac_rfl
  · rw [mixG3 w hw, mixG0 x hx, mixG1 y hy, mixG2 z hz]
    simp

theorem invmix_entry2 (w x y z : Nat) (hw : w < 256) (hx : x < 256)
    (hy : y < 256) (hz : z < 256) :
    gmul (gmul w 2 ^^^ gmul x 3 ^^^ y ^^^ z) 13 ^^^
    gmul (w ^^^ gmul x 2 ^^^ gmul y 3 ^^^ z) 9 ^^^
    gmul (w ^^^ x ^^^ gmul y 2 ^^^ gmul z 3) 14 ^^^
    gmul (gmul w 3 ^^^ x ^^^ y ^^^ gmul z 2) 11 = y := by
  simp only [gmul_xor_left]
  trans
    ((gmul w 14 ^^^ gmul (gmul w 3) 11 ^^^ gmul (gmul w 2) 13 ^^^ gmul w 9) ^^^
      (gmul x 14 ^^^ gmul x 11 ^^^ gmul (gmul x 3) 13 ^^^ gmul (gmul x 2) 9) ^^^
      (gmul (gmul y 2) 14 ^^^ gmul y 11 ^^^ gmul y 13 ^^^ gmul (gmul y 3) 9) ^^^
      (gmul (gmul z 3) 14 ^^^ gmul (gmul z 2) 11 ^^^ gmul z 13 ^^^ gmul z 9))
  · ac_rfl
  · rw [mixG2 w hw, mixG3 x hx, mixG0 y hy, mixG1 z hz]
    simp

theorem invmix_entry3 (w x y z : Nat) (hw : w < 256) (hx : x < 256)
    (hy : y < 256) (hz : z < 256) :
    gmul (gmul w 2 ^^^ gmul x 3 ^^^ y ^^^ z) 11 ^^^
    gmul (w ^^^ gmul x 2 ^^^ gmul y 3 ^^^ z) 13 ^^^
    gmul (w ^^^ x ^^^ gmul y 2 ^^^ gmul z 3) 9 ^^^
    gmul (gmul w 3 ^^^ x ^^^ y ^^^ gmul z 2) 14 = z := by
  simp only [gmul_xor_left]
  trans
    ((gmul (gmul w 3) 14 ^^^ gmul (gmul w 2) 11 ^^^ gmul w 13 ^^^ gmul w 9) ^^^
      (gmul x 14 ^^^ gmul (gmul x 3) 11 ^^^ gmul (gmul x 2) 13 ^^^ gmul x 9) ^^^
      (gmul y 14 ^^^ gmul y 11 ^^^ gmul (gmul y 3) 13 ^^^ gmul (gmul y 2) 9) ^^^
      (gmul (gmul z 2) 14 ^^^ gmul z 11 ^^^ gmul z 13 ^^^ gmul (gmul z 3) 9))
  · ac_rfl
  · rw [mixG1 w hw, mixG2 x hx, mixG3 y hy, mixG0 z hz]
    simp


theorem SBOX_length : SBOX.length = 256 := rfl

theorem sboxD_lt_bounded : ∀ x < 256, SBOX.getD x 0 < 256 := by decide

theorem sboxD_lt (x : Nat) : SBOX.getD x 0 < 256 := by
  rcases Nat.lt_or_ge x 256 with h | h
  · exact sboxD_lt_bounded x h
  · rw [List.getD_eq_default]
    · omega
    · rw [SBOX_length]; omega

/-- The inverse S-box, tabulated: `INV_SBOX` evaluates to this literal. -/
def invSboxTable : List Nat :=
  [82, 9, 106, 213, 48, 54, 165, 56, 191, 64, 163, 158, 129, 243, 215, 251,
   124, 227, 57, 130, 155, 47, 255, 135, 52, 142, 67, 68, 196, 222, 233, 203,
   84, 123, 148, 50, 166, 194, 35, 61, 238, 76, 149, 11, 66, 250, 195, 78,
   8, 46, 161, 102, 40, 217, 36, 178, 118, 91, 162, 73, 109, 139, 209, 37,
   114, 248, 246, 100, 134, 104, 152, 22, 212, 164, 92, 204, 93, 101, 182, 146,
   108, 112, 72, 80, 253, 237, 185, 218, 94, 21, 70, 87, 167, 141, 157, 132,
   144, 216, 171, 0, 140, 188, 211, 10, 247, 228, 88, 5, 184, 179, 69, 6,
   208, 44, 30, 143, 202, 63, 15, 2, 193, 175, 189, 3, 1, 19, 138, 107,
   58, 145, 17, 65, 79, 103, 220, 234, 151, 242, 207, 206, 240, 180, 230, 115,
   150, 172, 116, 34, 231, 173, 53, 133, 226, 249, 55, 232, 28, 117, 223, 110,
   71, 241, 26, 113, 29, 41, 197, 137, 111, 183, 98, 14, 170, 24, 190, 27,
   252, 86, 62, 75, 198, 210, 121, 32, 154, 219, 192, 254, 120, 205, 90, 244,
   31, 221, 168, 51, 136, 7, 199, 49, 177, 18, 16, 89, 39, 128, 236, 95,
   96, 81, 127, 169, 25, 181, 74, 13, 45, 229, 122, 159, 147, 201, 156, 239,
   160, 224, 59, 77, 174, 42, 245, 176, 200, 235, 187, 60, 131, 83, 153, 97,
   23, 43, 4, 126, 186, 119, 214, 38, 225, 105, 20, 99, 85, 33, 12, 125]

theorem INV_SBOX_eq_table : INV_SBOX = invSboxTable := by decide

theorem invSboxD_lt_bounded : ∀ x < 256, invSboxTable.getD x 0 < 256 := by decide

theorem invSboxTable_length : invSboxTable.length = 256 := rfl

theorem invSboxD_lt (x : Nat) : INV_SBOX.getD x 0 < 256 := by
  rw [INV_SBOX_eq_table]
  rcases Nat.lt_or_ge x 256 with h | h
  · exact invSboxD_lt_bounded x h
  · rw [List.getD_eq_default]
    · omega
    · rw [invSboxTable_length]; omega

theorem INV_SBOX_getD_SBOX_bounded :
    ∀ x < 256, invSboxTable.getD (SBOX.getD x 0) 0 = x := by decide

theorem INV_SBOX_getD_SBOX (x : Nat) (hx : x < 256) :
    INV_SBOX.getD (SBOX.getD x 0) 0 = x := by
  rw [INV_SBOX_eq_table]
  exact INV_SBOX_getD_SBOX_bounded x hx


set_option maxRecDepth 100000 in
def WFstate (s : List (List Nat)) : Prop :=
  ∃ a0 a1 a2 a3 a4 a5 a6 a7 a8 a9 a10 a11 a12 a13 a14 a15 : Nat,
    a0 < 256 ∧ a1 < 256 ∧ a2 < 256 ∧ a3 < 256 ∧ a4 < 256 ∧ a5 < 256 ∧ a6 < 256 ∧ a7 < 256 ∧ a8 < 256 ∧ a9 < 256 ∧ a10 < 256 ∧ a11 < 256 ∧ a12 < 256 ∧ a13 < 256 ∧ a14 < 256 ∧ a15 < 256 ∧
    s = [[a0, a1, a2, a3], [a4, a5, a6, a7], [a8, a9, a10, a11], [a12, a13, a14, a15]]

theorem xor_lt_256 {a b : Nat} (ha : a < 256) (hb : b < 256) :
    a ^^^ b < 256 :=
  Nat.xor_lt_two_pow (show a < 2 ^ 8 from ha) (show b < 2 ^ 8 from hb)

theorem WFstate_add_round_key {s k : List (List Nat)}
    (hs : WFstate s) (hk : WFstate k) : WFstate (add_round_key s k) := by
  obtain ⟨a0, a1, a2, a3, a4, a5, a6, a7, a8, a9, a10, a11, a12, a13, a14, a15, h0, h1, h2, h3, h4, h5, h6, h7, h8, h9, h10, h11, h12, h13, h14, h15, rfl⟩ := hs
  obtain ⟨b0, b1, b2, b3, b4, b5, b6, b7, b8, b9, b10, b11, b12, b13, b14, b15, hb0, hb1, hb2, hb3, hb4, hb5, hb6, hb7, hb8, hb9, hb10, hb11, hb12, hb13, hb14, hb15, rfl⟩ := hk
  rw [add_round_key_eval]
  exact ⟨a0 ^^^ b0, a1 ^^^ b1, a2 ^^^ b2, a3 ^^^ b3, a4 ^^^ b4, a5 ^^^ b5, a6 ^^^ b6, a7 ^^^ b7, a8 ^^^ b8, a9 ^^^ b9, a10 ^^^ b10, a11 ^^^ b11, a12 ^^^ b12, a13 ^^^ b13, a14 ^^^ b14, a15 ^^^ b15,
    xor_lt_256 h0 hb0, xor_lt_256 h1 hb1, xor_lt_256 h2 hb2, xor_lt_256 h3 hb3, xor_lt_256 h4 hb4, xor_lt_256 h5 hb5, xor_lt_256 h6 hb6, xor_lt_256 h7 hb7, xor_lt_256 h8 hb8, xor_lt_256 h9 hb9, xor_lt_256 h10 hb10, xor_lt_256 h11 hb11, xor_lt_256 h12 hb12, xor_lt_256 h13 hb13, xor_lt_256 h14 hb14, xor_lt_256 h15 hb15, rfl⟩

theorem WFstate_sub_bytes {s : List (List Nat)}
    (hs : WFstate s) : WFstate (sub_bytes s) := by
  obtain ⟨a0, a1, a2, a3, a4, a5, a6, a7, a8, a9, a10, a11, a12, a13, a14, a15, h0, h1, h2, h3, h4, h5, h6, h7, h8, h9, h10, h11, h12, h13, h14, h15, rfl⟩ := hs
  rw [sub_bytes_eval]
  exact ⟨SBOX.getD a0 0, SBOX.getD a1 0, SBOX.getD a2 0, SBOX.getD a3 0, SBOX.getD a4 0, SBOX.getD a5 0, SBOX.getD a6 0, SBOX.getD a7 0, SBOX.getD a8 0, SBOX.getD a9 0, SBOX.getD a10 0, SBOX.getD a11 0, SBOX.getD a12 0, SBOX.getD a13 0, SBOX.getD a14 0, SBOX.getD a15 0,
    sboxD_lt _, sboxD_lt _, sboxD_lt _, sboxD_lt _, sboxD_lt _, sboxD_lt _, sboxD_lt _, sboxD_lt _, sboxD_lt _, sboxD_lt _, sboxD_lt _, sboxD_lt _, sboxD_lt _, sboxD_lt _, sboxD_lt _, sboxD_lt _, rfl⟩

theorem WFstate_inv_sub_bytes {s : List (List Nat)}
    (hs : WFstate s) : WFstate (inv_sub_bytes s) := by
  obtain ⟨a0, a1, a2, a3, a4, a5, a6, a7, a8, a9, a10, a11, a12, a13, a14, a15, h0, h1, h2, h3, h4, h5, h6, h7, h8, h9, h10, h11, h12, h13, h14, h15, rfl⟩ := hs
  rw [inv_sub_bytes_eval]
  exact ⟨INV_SBOX.getD a0 0, INV_SBOX.getD a1 0, INV_SBOX.getD a2 0, INV_SBOX.getD a3 0, INV_SBOX.getD a4 0, INV_SBOX.getD a5 0, INV_SBOX.getD a6 0, INV_SBOX.getD a7 0, INV_SBOX.getD a8 0, INV_SBOX.getD a9 0, INV_SBOX.getD a10 0, INV_SBOX.getD a11 0, INV_SBOX.getD a12 0, INV_SBOX.getD a13 0, INV_SBOX.getD a14 0, INV_SBOX.getD a15 0,
    invSboxD_lt _, invSboxD_lt _, invSboxD_lt _, invSboxD_lt _, invSboxD_lt _, invSboxD_lt _, invSboxD_lt _, invSboxD_lt _, invSboxD_lt _, invSboxD_lt _, invSboxD_lt _, invSboxD_lt _, invSboxD_lt _, invSboxD_lt _, invSboxD_lt _, invSboxD_lt _, rfl⟩

theorem WFstate_shift_rows {s : List (List Nat)}
    (hs : WFstate s) : WFstate (shift_rows s) := by
  obtain ⟨a0, a1, a2, a3, a4, a5, a6, a7, a8, a9, a10, a11, a12, a13, a14, a15, h0, h1, h2, h3, h4, h5, h6, h7, h8, h9, h10, h11, h12, h13, h14, h15, rfl⟩ := hs
  rw [shift_rows_eval]
  exact ⟨a0, a1, a2, a3, a5, a6, a7, a4, a10, a11, a8, a9, a15, a12, a13, a14,
    h0, h1, h2, h3, h5, h6, h7, h4, h10, h11, h8, h9, h15, h12, h13, h14, rfl⟩

theorem WFstate_inv_shift_rows {s : List (List Nat)}
    (hs : WFstate s) : WFstate (inv_shift_rows s) := by
  obtain ⟨a0, a1, a2, a3, a4, a5, a6, a7, a8, a9, a10, a11, a12, a13, a14, a15, h0, h1, h2, h3, h4, h5, h6, h7, h8, h9, h10, h11, h12, h13, h14, h15, rfl⟩ := hs
  rw [inv_shift_rows_eval]
  exact ⟨a0, a1, a2, a3, a7, a4, a5, a6, a10, a11, a8, a9, a13, a14, a15, a12,
    h0, h1, h2, h3, h7, h4, h5, h6, h10, h11, h8, h9, h13, h14, h15, h12, rfl⟩

theorem WFstate_mix_columns {s : List (List Nat)}
    (hs : WFstate s) : WFstate (mix_columns s) := by
  obtain ⟨a0, a1, a2, a3, a4, a5, a6, a7, a8, a9, a10, a11, a12, a13, a14, a15, h0, h1, h2, h3, h4, h5, h6, h7, h8, h9, h10, h11, h12, h13, h14, h15, rfl⟩ := hs
  rw [mix_columns_eval]
  exact ⟨gmul a0 2 ^^^ gmul a4 3 ^^^ a8 ^^^ a12, gmul a1 2 ^^^ gmul a5 3 ^^^ a9 ^^^ a13, gmul a2 2 ^^^ gmul a6 3 ^^^ a10 ^^^ a14, gmul a3 2 ^^^ gmul a7 3 ^^^ a11 ^^^ a15, a0 ^^^ gmul a4 2 ^^^ gmul a8 3 ^^^ a12, a1 ^^^ gmul a5 2 ^^^ gmul a9 3 ^^^ a13, a2 ^^^ gmul a6 2 ^^^ gmul a10 3 ^^^ a14, a3 ^^^ gmul a7 2 ^^^ gmul a11 3 ^^^ a15, a0 ^^^ a4 ^^^ gmul a8 2 ^^^ gmul a12 3, a1 ^^^ a5 ^^^ gmul a9 2 ^^^ gmul a13 3, a2 ^^^ a6 ^^^ gmul a10 2 ^^^ gmul a14 3, a3 ^^^ a7 ^^^ gmul a11 2 ^^^ gmul a15 3, gmul a0 3 ^^^ a4 ^^^ a8 ^^^ gmul a12 2, gmul a1 3 ^^^ a5 ^^^ a9 ^^^ gmul a13 2, gmul a2 3 ^^^ a6 ^^^ a10 ^^^ gmul a14 2, gmul a3 3 ^^^ a7 ^^^ a11 ^^^ gmul a15 2,
    xor_lt_256 (xor_lt_256 (xor_lt_256 (gmul_lt _ _) (gmul_lt _ _)) h8) h12,
    xor_lt_256 (xor_lt_256 (xor_lt_256 (gmul_lt _ _) (gmul_lt _ _)) h9) h13,
    xor_lt_256 (xor_lt_256 (xor_lt_256 (gmul_lt _ _) (gmul_lt _ _)) h10) h14,
    xor_lt_256 (xor_lt_256 (xor_lt_256 (gmul_lt _ _) (gmul_lt _ _)) h11) h15,
    xor_lt_256 (xor_lt_256 (xor_lt_256 h0 (gmul_lt _ _)) (gmul_lt _ _)) h12,
    xor_lt_256 (xor_lt_256 (xor_lt_256 h1 (gmul_lt _ _)) (gmul_lt _ _)) h13,
    xor_lt_256 (xor_lt_256 (xor_lt_256 h2 (gmul_lt _ _)) (gmul_lt _ _)) h14,
    xor_lt_256 (xor_lt_256 (xor_lt_256 h3 (gmul_lt _ _)) (gmul_lt _ _)) h15,
    xor_lt_256 (xor_lt_256 (xor_lt_256 h0 h4) (gmul_lt _ _)) (gmul_lt _ _),
    xor_lt_256 (xor_lt_256 (xor_lt_256 h1 h5) (gmul_lt _ _)) (gmul_lt _ _),
    xor_lt_256 (xor_lt_256 (xor_lt_256 h2 h6) (gmul_lt _ _)) (gmul_lt _ _),
    xor_lt_256 (xor_lt_256 (xor_lt_256 h3 h7) (gmul_lt _ _)) (gmul_lt _ _),
    xor_lt_256 (xor_lt_256 (xor_lt_256 (gmul_lt _ _) h4) h8) (gmul_lt _ _),
    xor_lt_256 (xor_lt_256 (xor_lt_256 (gmul_lt _ _) h5) h9) (gmul_lt _ _),
    xor_lt_256 (xor_lt_256 (xor_lt_256 (gmul_lt _ _) h6) h10) (gmul_lt _ _),
    xor_lt_256 (xor_lt_256 (xor_lt_256 (gmul_lt _ _) h7) h11) (gmul_lt _ _), rfl⟩

theorem WFstate_inv_mix_columns {s : List (List Nat)}
    (hs : WFstate s) : WFstate (inv_mix_columns s) := by
  obtain ⟨a0, a1, a2, a3, a4, a5, a6, a7, a8, a9, a10, a11, a12, a13, a14, a15, h0, h1, h2, h3, h4, h5, h6, h7, h8, h9, h10, h11, h12, h13, h14, h15, rfl⟩ := hs
  rw [inv_mix_columns_eval]
  exact ⟨gmul a0 14 ^^^ gmul a4 11 ^^^ gmul a8 13 ^^^ gmul a12 9, gmul a1 14 ^^^ gmul a5 11 ^^^ gmul a9 13 ^^^ gmul a13 9, gmul a2 14 ^^^ gmul a6 11 ^^^ gmul a10 13 ^^^ gmul a14 9, gmul a3 14 ^^^ gmul a7 11 ^^^ gmul a11 13 ^^^ gmul a15 9, gmul a0 9 ^^^ gmul a4 14 ^^^ gmul a8 11 ^^^ gmul a12 13, gmul a1 9 ^^^ gmul a5 14 ^^^ gmul a9 11 ^^^ gmul a13 13, gmul a2 9 ^^^ gmul a6 14 ^^^ gmul a10 11 ^^^ gmul a14 13, gmul a3 9 ^^^ gmul a7 14 ^^^ gmul a11 11 ^^^ gmul a15 13, gmul a0 13 ^^^ gmul a4 9 ^^^ gmul a8 14 ^^^ gmul a12 11, gmul a1 13 ^^^ gmul a5 9 ^^^ gmul a9 14 ^^^ gmul a13 11, gmul a2 13 ^^^ gmul a6 9 ^^^ gmul a10 14 ^^^ gmul a14 11, gmul a3 13 ^^^ gmul a7 9 ^^^ gmul a11 14 ^^^ gmul a15 11, gmul a0 11 ^^^ gmul a4 13 ^^^ gmul a8 9 ^^^ gmul a12 14, gmul a1 11 ^^^ gmul a5 13 ^^^ gmul a9 9 ^^^ gmul a13 14, gmul a2 11 ^^^ gmul a6 13 ^^^ gmul a10 9 ^^^ gmul a14 14, gmul a3 11 ^^^ gmul a7 13 ^^^ gmul a11 9 ^^^ gmul a15 14,
    xor_lt_256 (xor_lt_256 (xor_lt_256 (gmul_lt _ _) (gmul_lt _ _)) (gmul_lt _ _)) (gmul_lt _ _),
    xor_lt_256 (xor_lt_256 (xor_lt_256 (gmul_lt _ _) (gmul_lt _ _)) (gmul_lt _ _)) (gmul_lt _ _),
    xor_lt_256 (xor_lt_256 (xor_lt_256 (gmul_lt _ _) (gmul_lt _ _)) (gmul_lt _ _)) (gmul_lt _ _),
    xor_lt_256 (xor_lt_256 (xor_lt_256 (gmul_lt _ _) (gmul_lt _ _)) (gmul_lt _ _)) (gmul_lt _ _),
    xor_lt_256 (xor_lt_256 (xor_lt_256 (gmul_lt _ _) (gmul_lt _ _)) (gmul_lt _ _)) (gmul_lt _ _),
    xor_lt_256 (xor_lt_256 (xor_lt_256 (gmul_lt _ _) (gmul_lt _ _)) (gmul_lt _ _)) (gmul_lt _ _),
    xor_lt_256 (xor_lt_256 (xor_lt_256 (gmul_lt _ _) (gmul_lt _ _)) (gmul_lt _ _)) (gmul_lt _ _),
    xor_lt_256 (xor_lt_256 (xor_lt_256 (gmul_lt _ _) (gmul_lt _ _)) (gmul_lt _ _)) (gmul_lt _ _),
    xor_lt_256 (xor_lt_256 (xor_lt_256 (gmul_lt _ _) (gmul_lt _ _)) (gmul_lt _ _)) (gmul_lt _ _),
    xor_lt_256 (xor_lt_256 (xor_lt_256 (gmul_lt _ _) (gmul_lt _ _)) (gmul_lt _ _)) (gmul_lt _ _),
    xor_lt_256 (xor_lt_256 (xor_lt_256 (gmul_lt _ _) (gmul_lt _ _)) (gmul_lt _ _)) (gmul_lt _ _),
    xor_lt_256 (xor_lt_256 (xor_lt_256 (gmul_lt _ _) (gmul_lt _ _)) (gmul_lt _ _)) (gmul_lt _ _),
    xor_lt_256 (xor_lt_256 (xor_lt_256 (gmul_lt _ _) (gmul_lt _ _)) (gmul_lt _ _)) (gmul_lt _ _),
    xor_lt_256 (xor_lt_256 (xor_lt_256 (gmul_lt _ _) (gmul_lt _ _)) (gmul_lt _ _)) (gmul_lt _ _),
    xor_lt_256 (xor_lt_256 (xor_lt_256 (gmul_lt _ _) (gmul_lt _ _)) (gmul_lt _ _)) (gmul_lt _ _),
    xor_lt_256 (xor_lt_256 (xor_lt_256 (gmul_lt _ _) (gmul_lt _ _)) (gmul_lt _ _)) (gmul_lt _ _), rfl⟩

theorem add_round_key_cancel {s k : List (List Nat)}
    (hs : WFstate s) (hk : WFstate k) :
    add_round_key (add_round_key s k) k = s := by
  obtain ⟨a0, a1, a2, a3, a4, a5, a6, a7, a8, a9, a10, a11, a12, a13, a14, a15, h0, h1, h2, h3, h4, h5, h6, h7, h8, h9, h10, h11, h12, h13, h14, h15, rfl⟩ := hs
  obtain ⟨b0, b1, b2, b3, b4, b5, b6, b7, b8, b9, b10, b11, b12, b13, b14, b15, hb0, hb1, hb2, hb3, hb4, hb5, hb6, hb7, hb8, hb9, hb10, hb11, hb12, hb13, hb14, hb15, rfl⟩ := hk
  rw [add_round_key_eval, add_round_key_eval]
  simp only [Nat.xor_cancel_right]

theorem inv_sub_bytes_sub_bytes {s : List (List Nat)}
    (hs : WFstate s) : inv_sub_bytes (sub_bytes s) = s := by
  obtain ⟨a0, a1, a2, a3, a4, a5, a6, a7, a8, a9, a10, a11, a12, a13, a14, a15, h0, h1, h2, h3, h4, h5, h6, h7, h8, h9, h10, h11, h12, h13, h14, h15, rfl⟩ := hs
  rw [sub_bytes_eval, inv_sub_bytes_eval]
  rw [INV_SBOX_getD_SBOX a0 h0,
    INV_SBOX_getD_SBOX a1 h1,
    INV_SBOX_getD_SBOX a2 h2,
    INV_SBOX_getD_SBOX a3 h3,
    INV_SBOX_getD_SBOX a4 h4,
    INV_SBOX_getD_SBOX a5 h5,
    INV_SBOX_getD_SBOX a6 h6,
    INV_SBOX_getD_SBOX a7 h7,
    INV_SBOX_getD_SBOX a8 h8,
    INV_SBOX_getD_SBOX a9 h9,
    INV_SBOX_getD_SBOX a10 h10,
    INV_SBOX_getD_SBOX a11 h11,
    INV_SBOX_getD_SBOX a12 h12,
    INV_SBOX_getD_SBOX a13 h13,
    INV_SBOX_getD_SBOX a14 h14,
    INV_SBOX_getD_SBOX a15 h15]

theorem inv_shift_rows_shift_rows {s : List (List Nat)}
    (hs : WFstate s) : inv_shift_rows (shift_rows s) = s := by
  obtain ⟨a0, a1, a2, a3, a4, a5, a6, a7, a8, a9, a10, a11, a12, a13, a14, a15, h0, h1, h2, h3, h4, h5, h6, h7, h8, h9, h10, h11, h12, h13, h14, h15, rfl⟩ := hs
  rw [shift_rows_eval, inv_shift_rows_eval]

theorem inv_mix_columns_mix_columns {s : List (List Nat)}
    (hs : WFstate s) : inv_mix_columns (mix_columns s) = s := by
  obtain ⟨a0, a1, a2, a3, a4, a5, a6, a7, a8, a9, a10, a11, a12, a13, a14, a15, h0, h1, h2, h3, h4, h5, h6, h7, h8, h9, h10, h11, h12, h13, h14, h15, rfl⟩ := hs
  rw [mix_columns_eval, inv_mix_columns_eval]
  rw [invmix_entry0 a0 a4 a8 a12 h0 h4 h8 h12,
    invmix_entry0 a1 a5 a9 a13 h1 h5 h9 h13,
    invmix_entry0 a2 a6 a10 a14 h2 h6 h10 h14,
    invmix_entry0 a3 a7 a11 a15 h3 h7 h11 h15,
    invmix_entry1 a0 a4 a8 a12 h0 h4 h8 h12,
    invmix_entry1 a1 a5 a9 a13 h1 h5 h9 h13,
    invmix_entry1 a2 a6 a10 a14 h2 h6 h10 h14,
    invmix_entry1 a3 a7 a11 a15 h3 h7 h11 h15,
    invmix_entry2 a0 a4 a8 a12 h0 h4 h8 h12,
    invmix_entry2 a1 a5 a9 a13 h1 h5 h9 h13,
    invmix_entry2 a2 a6 a10 a14 h2 h6 h10 h14,
    invmix_entry2 a3 a7 a11 a15 h3 h7 h11 h15,
    invmix_entry3 a0 a4 a8 a12 h0 h4 h8 h12,
    invmix_entry3 a1 a5 a9 a13 h1 h5 h9 h13,
    invmix_entry3 a2 a6 a10 a14 h2 h6 h10 h14,
    invmix_entry3 a3 a7 a11 a15 h3 h7 h11 h15]


/-! ### The round structure of encrypt/decrypt -/

/-- One middle round of `AES.encrypt`:
`sub_bytes; shift_rows; mix_columns; add_round_key(round)`. -/
def encRound (st k : List (List Nat)) : List (List Nat) :=
  add_round_key (mix_columns (shift_rows (sub_bytes st))) k

/-- One middle round of `AES.decrypt`:
`add_round_key(round); inv_mix_columns; inv_shift_rows; inv_sub_bytes`. -/
def decRound (st k : List (List Nat)) : List (List Nat) :=
  inv_sub_bytes (inv_shift_rows (inv_mix_columns (add_round_key st k)))

/-- The round structure of `AES.encrypt` on the state matrix, given the list
of round-key matrices: initial `add_round_key` with key 0, the middle rounds
over keys `1 .. N-1`, and the final round (no `mix_columns`) with key `N`. -/
def encryptState (rks : List (List (List Nat))) (s : List (List Nat)) :
    List (List Nat) :=
  match rks with
  | [] => s
  | k0 :: rest =>
    add_round_key
      (shift_rows (sub_bytes (rest.dropLast.foldl encRound (add_round_key s k0))))
      (rest.getLastD k0)

/-- The round structure of `AES.decrypt` on the state matrix: exactly the
inverse ordering, with the middle keys traversed in reverse. -/
def decryptState (rks : List (List (List Nat))) (s : List (List Nat)) :
    List (List Nat) :=
  match rks with
  | [] => s
  | k0 :: rest =>
    add_round_key
      (rest.dropLast.reverse.foldl decRound
        (inv_sub_bytes (inv_shift_rows (add_round_key s (rest.getLastD k0)))))
      k0

theorem WFstate_encRound {s k : List (List Nat)} (hs : WFstate s)
    (hk : WFstate k) : WFstate (encRound s k) :=
  WFstate_add_round_key
    (WFstate_mix_columns (WFstate_shift_rows (WFstate_sub_bytes hs))) hk

theorem decRound_encRound {s k : List (List Nat)} (hs : WFstate s)
    (hk : WFstate k) : decRound (encRound s k) k = s := by
  unfold decRound encRound
  rw [add_round_key_cancel
    (WFstate_mix_columns (WFstate_shift_rows (WFstate_sub_bytes hs))) hk]
  rw [inv_mix_columns_mix_columns (WFstate_shift_rows (WFstate_sub_bytes hs))]
  rw [inv_shift_rows_shift_rows (WFstate_sub_bytes hs)]
  rw [inv_sub_bytes_sub_bytes hs]

theorem WFstate_foldl_encRound :
    ∀ (ms : List (List (List Nat))) (s : List (List Nat)), WFstate s →
      (∀ k ∈ ms, WFstate k) → WFstate (ms.foldl encRound s) := by
  intro ms
  induction ms with
  | nil => intro s hs _; exact hs
  | cons k ms ih =>
    intro s hs hk
    simp only [List.foldl_cons]
    exact ih _ (WFstate_encRound hs (hk k (List.mem_cons_self k ms)))
      fun m hm => hk m (List.mem_cons_of_mem k hm)

theorem foldl_decRound_encRound :
    ∀ (ms : List (List (List Nat))) (s : List (List Nat)), WFstate s →
      (∀ k ∈ ms, WFstate k) →
      (ms.reverse).foldl decRound (ms.foldl encRound s) = s := by
  intro ms
  induction ms with
  | nil => intro s _ _; rfl
  | cons k ms ih =>
    intro s hs hk
    have hkk : WFstate k := hk k (List.mem_cons_self k ms)
    have hrest : ∀ m ∈ ms, WFstate m := fun m hm => hk m (List.mem_cons_of_mem k hm)
    simp only [List.foldl_cons, List.reverse_cons, List.foldl_append]
    rw [ih (encRound s k) (WFstate_encRound hs hkk) hrest]
    simp only [List.foldl_cons, List.foldl_nil]
    exact decRound_encRound hs hkk

/-- Decrypting an encrypted state with the same round keys recovers the
state, for any list of well-formed round keys. -/
theorem state_roundtrip (rks : List (List (List Nat))) (s : List (List Nat))
    (hks : ∀ k ∈ rks, WFstate k) (hs : WFstate s) :
    decryptState rks (encryptState rks s) = s := by
  cases rks with
  | nil => rfl
  | cons k0 rest =>
    have hk0 : WFstate k0 := hks k0 (List.mem_cons_self k0 rest)
    have hmid : ∀ k ∈ rest.dropLast, WFstate k := fun k hk =>
      hks k (List.mem_cons_of_mem k0 ((List.dropLast_sublist rest).subset hk))
    have hlast : WFstate (rest.getLastD k0) :=
      hks _ (List.getLastD_mem_cons rest k0)
    have hM : WFstate (rest.dropLast.foldl encRound (add_round_key s k0)) :=
      WFstate_foldl_encRound _ _ (WFstate_add_round_key hs hk0) hmid
    simp only [encryptState, decryptState]
    rw [add_round_key_cancel (WFstate_shift_rows (WFstate_sub_bytes hM)) hlast]
    rw [inv_shift_rows_shift_rows (WFstate_sub_bytes hM)]
    rw [inv_sub_bytes_sub_bytes hM]
    rw [foldl_decRound_encRound _ _ (WFstate_add_round_key hs hk0) hmid]
    exact add_round_key_cancel hs hk0

theorem list_eq_sixteen {α : Type} {l : List α} (h : l.length = 16) :
    ∃ b0 b1 b2 b3 b4 b5 b6 b7 b8 b9 b10 b11 b12 b13 b14 b15,
      l = [b0, b1, b2, b3, b4, b5, b6, b7, b8, b9, b10, b11, b12, b13, b14, b15] := by
  rcases l with _ | ⟨b0, l⟩
  · simp only [List.length_cons, List.length_nil] at h; omega
  rcases l with _ | ⟨b1, l⟩
  · simp only [List.length_cons, List.length_nil] at h; omega
  rcases l with _ | ⟨b2, l⟩
  · simp only [List.length_cons, List.length_nil] at h; omega
  rcases l with _ | ⟨b3, l⟩
  · simp only [List.length_cons, List.length_nil] at h; omega
  rcases l with _ | ⟨b4, l⟩
  · simp only [List.length_cons, List.length_nil] at h; omega
  rcases l with _ | ⟨b5, l⟩
  · simp only [List.length_cons, List.length_nil] at h; omega
  rcases l with _ | ⟨b6, l⟩
  · simp only [List.length_cons, List.length_nil] at h; omega
  rcases l with _ | ⟨b7, l⟩
  · simp only [List.length_cons, List.length_nil] at h; omega
  rcases l with _ | ⟨b8, l⟩
  · simp only [List.length_cons, List.length_nil] at h; omega
  rcases l with _ | ⟨b9, l⟩
  · simp only [List.length_cons, List.length_nil] at h; omega
  rcases l with _ | ⟨b10, l⟩
  · simp only [List.length_cons, List.length_nil] at h; omega
  rcases l with _ | ⟨b11, l⟩
  · simp only [List.length_cons, List.length_nil] at h; omega
  rcases l with _ | ⟨b12, l⟩
  · simp only [List.length_cons, List.length_nil] at h; omega
  rcases l with _ | ⟨b13, l⟩
  · simp only [List.length_cons, List.length_nil] at h; omega
  rcases l with _ | ⟨b14, l⟩
  · simp only [List.length_cons, List.length_nil] at h; omega
  rcases l with _ | ⟨b15, l⟩
  · simp only [List.length_cons, List.length_nil] at h; omega
  rcases l with _ | ⟨b16, l⟩
  · exact ⟨b0, b1, b2, b3, b4, b5, b6, b7, b8, b9, b10, b11, b12, b13, b14, b15, rfl⟩
  · simp only [List.length_cons, List.length_nil] at h; omega

theorem WFstate_toMatrix {l : List Nat} (hlen : l.length = 16)
    (hb : ∀ b ∈ l, b < 256) : WFstate (toMatrix l) := by
  obtain ⟨b0, b1, b2, b3, b4, b5, b6, b7, b8, b9, b10, b11, b12, b13, b14, b15, rfl⟩ := list_eq_sixteen hlen
  rw [toMatrix_eval]
  exact ⟨b0, b1, b2, b3, b4, b5, b6, b7, b8, b9, b10, b11, b12, b13, b14, b15,
    hb b0 (by simp), hb b1 (by simp), hb b2 (by simp), hb b3 (by simp), hb b4 (by simp), hb b5 (by simp), hb b6 (by simp), hb b7 (by simp), hb b8 (by simp), hb b9 (by simp), hb b10 (by simp), hb b11 (by simp), hb b12 (by simp), hb b13 (by simp), hb b14 (by simp), hb b15 (by simp), rfl⟩

theorem unloadState_toMatrix {l : List Nat} (hlen : l.length = 16) :
    unloadState (toMatrix l) = l := by
  obtain ⟨b0, b1, b2, b3, b4, b5, b6, b7, b8, b9, b10, b11, b12, b13, b14, b15, rfl⟩ := list_eq_sixteen hlen
  rw [toMatrix_eval, unloadState_eval]

theorem toMatrix_unloadState {s : List (List Nat)} (hs : WFstate s) :
    toMatrix (unloadState s) = s := by
  obtain ⟨b0, b1, b2, b3, b4, b5, b6, b7, b8, b9, b10, b11, b12, b13, b14, b15, _, _, _, _, _, _, _, _, _, _, _, _, _, _, _, _, rfl⟩ := hs
  rw [unloadState_eval, toMatrix_eval]

theorem unloadState_length {s : List (List Nat)} (hs : WFstate s) :
    (unloadState s).length = 16 := by
  obtain ⟨b0, b1, b2, b3, b4, b5, b6, b7, b8, b9, b10, b11, b12, b13, b14, b15, _, _, _, _, _, _, _, _, _, _, _, _, _, _, _, _, rfl⟩ := hs
  rw [unloadState_eval]
  rfl

/-- The round-constant table `RCON` from `aes.py`. -/
theorem RCON_length : RCON.length = 32 := rfl

theorem RCON_getD_lt_bounded : ∀ i < 32, RCON.getD i 0 < 256 := by decide

theorem RCON_getD_lt (i : Nat) : RCON.getD i 0 < 256 := by
  rcases Nat.lt_or_ge i 32 with h | h
  · exact RCON_getD_lt_bounded i h
  · rw [List.getD_eq_default]
    · omega
    · rw [RCON_length]; omega

theorem list_eq_four {α : Type} {l : List α} (h : l.length = 4) :
    ∃ b0 b1 b2 b3, l = [b0, b1, b2, b3] := by
  rcases l with _ | ⟨b0, l⟩
  · simp only [List.length_cons, List.length_nil] at h; omega
  rcases l with _ | ⟨b1, l⟩
  · simp only [List.length_cons, List.length_nil] at h; omega
  rcases l with _ | ⟨b2, l⟩
  · simp only [List.length_cons, List.length_nil] at h; omega
  rcases l with _ | ⟨b3, l⟩
  · simp only [List.length_cons, List.length_nil] at h; omega
  rcases l with _ | ⟨b4, l⟩
  · exact ⟨b0, b1, b2, b3, rfl⟩
  · simp only [List.length_cons, List.length_nil] at h; omega

theorem SBOXsub_mem {w : List Nat} : ∀ b ∈ SBOXsub w, b < 256 := by
  intro b hb
  obtain ⟨y, _, rfl⟩ := List.mem_map.mp hb
  exact sboxD_lt y

theorem SBOXsub_length (w : List Nat) : (SBOXsub w).length = w.length :=
  List.length_map w _

theorem schedule_core_mem (w : List Nat) (i : Nat) :
    ∀ b ∈ schedule_core w i, b < 256 := by
  intro b hb
  unfold schedule_core at hb
  cases heq : SBOXsub (rotate w) with
  | nil => rw [heq] at hb; cases hb
  | cons c rest =>
    rw [heq] at hb
    rcases List.mem_cons.mp hb with rfl | h
    · have hc : c < 256 := SBOXsub_mem c (heq ▸ List.mem_cons_self c rest)
      exact xor_lt_256 hc (RCON_getD_lt i)
    · exact SBOXsub_mem b (heq ▸ List.mem_cons_of_mem c h)

theorem schedule_core_length {w : List Nat} (h : w.length = 4) (i : Nat) :
    (schedule_core w i).length = 4 := by
  obtain ⟨b0, b1, b2, b3, rfl⟩ := list_eq_four h
  rfl

theorem zipWith_xor_mem :
    ∀ (l1 l2 : List Nat), (∀ b ∈ l1, b < 256) → (∀ b ∈ l2, b < 256) →
      ∀ b ∈ List.zipWith (· ^^^ ·) l1 l2, b < 256 := by
  intro l1
  induction l1 with
  | nil => intro l2 _ _ b hb; simp at hb
  | cons a l1 ih =>
    intro l2 h1 h2 b hb
    cases l2 with
    | nil => simp at hb
    | cons c l2 =>
      simp only [List.zipWith_cons_cons] at hb
      rcases List.mem_cons.mp hb with rfl | h
      · exact xor_lt_256 (h1 a (by simp)) (h2 c (by simp))
      · exact ih l2 (fun x hx => h1 x (by simp [hx]))
          (fun x hx => h2 x (by simp [hx])) b h

theorem expandLoop_mem (kbl target : Nat) :
    ∀ fuel ek i, (∀ b ∈ ek, b < 256) →
      ∀ b ∈ expandLoop kbl target fuel ek i, b < 256 := by
  intro fuel
  induction fuel with
  | zero => intro ek i h; exact h
  | succ f ih =>
    intro ek i h
    simp only [expandLoop]
    split_ifs
    all_goals first
    | exact h
    | (apply ih
       intro b hb
       rcases List.mem_append.mp hb with hb | hb
       · exact h b hb
       · refine zipWith_xor_mem _ _ ?_ ?_ b hb
         · intro x hx
           exact h x (List.mem_of_mem_drop (List.mem_of_mem_take hx))
         · intro x hx
           first
           | exact SBOXsub_mem x hx
           | exact schedule_core_mem _ _ x hx
           | exact h x (List.mem_of_mem_drop hx))

theorem expandLoop_length (kbl : Nat) (h4 : 4 ≤ kbl) (target : Nat) :
    ∀ fuel ek i, kbl ≤ ek.length → ek.length ≤ target →
      4 ∣ (target - ek.length) → target - ek.length ≤ 4 * fuel →
      (expandLoop kbl target fuel ek i).length = target := by
  intro fuel
  induction fuel with
  | zero =>
    intro ek i hk hle hdvd hf
    have : ek.length = target := by omega
    simpa [expandLoop] using this
  | succ f ih =>
    intro ek i hk hle hdvd hf
    have hbase : ((ek.drop (ek.length - kbl)).take 4).length = 4 := by
      simp only [List.length_take, List.length_drop]
      omega
    have hdrop4 : (ek.drop (ek.length - 4)).length = 4 := by
      simp only [List.length_drop]
      omega
    simp only [expandLoop]
    split_ifs with hlt
    all_goals try (exact by omega)
    all_goals (
      apply ih <;>
        simp only [List.length_append, List.length_zipWith, hbase] <;>
        first
        | (rw [SBOXsub_length, schedule_core_length hdrop4 i]; omega)
        | (rw [SBOXsub_length, hdrop4]; omega)
        | (rw [schedule_core_length hdrop4 i]; omega)
        | (rw [hdrop4]; omega)
        | omega)

theorem expand_key_case (key : List Nat) (kbl target L : Nat)
    (h : key.length = kbl) (h4 : 4 ≤ kbl) (hLt : L ≤ target) (hL16 : L % 16 = 0)
    (hdvd : 4 ∣ target - kbl) (hkt : kbl ≤ target)
    (hks : expand_key key =
      Except.ok ((expandLoop kbl target target key 1).take L))
    (hb : ∀ b ∈ key, b < 256) :
    ∃ ks, expand_key key = Except.ok ks ∧ ks.length % 16 = 0 ∧
      ∀ b ∈ ks, b < 256 := by
  refine ⟨_, hks, ?_, ?_⟩
  · rw [List.length_take,
      expandLoop_length kbl h4 target target key 1 (by omega) (by omega)
        (by omega) (by omega)]
    omega
  · intro b hbm
    exact expandLoop_mem _ _ _ _ _ hb b (List.mem_of_mem_take hbm)

theorem expand_key_ok (key : List Nat)
    (hlen : key.length = 16 ∨ key.length = 24 ∨ key.length = 32)
    (hb : ∀ b ∈ key, b < 256) :
    ∃ ks, expand_key key = Except.ok ks ∧ ks.length % 16 = 0 ∧
      ∀ b ∈ ks, b < 256 := by
  rcases hlen with h | h | h
  · exact expand_key_case key 16 176 176 h (by omega) (by omega) (by omega)
      (by omega) (by omega) (by simp only [expand_key, h]; norm_num) hb
  · exact expand_key_case key 24 312 208 h (by omega) (by omega) (by omega)
      (by omega) (by omega) (by simp only [expand_key, h]; norm_num) hb
  · exact expand_key_case key 32 480 240 h (by omega) (by omega) (by omega)
      (by omega) (by omega) (by simp only [expand_key, h]; norm_num) hb



/-! ### The full cipher: round keys, `AES.encrypt`, `AES.decrypt` -/

/-- `round_keys = [ks[i:i+16] for i in range(0, len(ks), 16)]`, each chunk
then arranged as a 4×4 matrix (`[rk[j:j+4] for j in range(0, 16, 4)]`,
which is the same chunking `toMatrix` performs). -/
def roundKeysOf (ks : List Nat) : List (List (List Nat)) :=
  (List.range ((ks.length + 15) / 16)).map
    (fun i => toMatrix ((ks.drop (16 * i)).take 16))

/-- `AES.__init__`: validate the key length and compute the key schedule.
(The `key is None` branch, which draws a random key, is not needed by any
claim and is omitted; the embedding always receives an explicit key.) -/
def AES_mk (key : List Nat) : Except String (List Nat) :=
  if key.length = 16 ∨ key.length = 24 ∨ key.length = 32 then expand_key key
  else Except.error "Key must be 16, 24, or 32 bytes long."

/-- The body of `AES.encrypt` given the key schedule: validate the block
length, load the state, run the rounds, and flatten the state. -/
def aesEncryptBlock (ks pt : List Nat) : Except String (List Nat) :=
  if pt.length = 16 then
    Except.ok (unloadState (encryptState (roundKeysOf ks) (toMatrix pt)))
  else Except.error "Plaintext must be 16 bytes long."

/-- The body of `AES.decrypt` given the key schedule. -/
def aesDecryptBlock (ks ct : List Nat) : Except String (List Nat) :=
  if ct.length = 16 then
    Except.ok (unloadState (decryptState (roundKeysOf ks) (toMatrix ct)))
  else Except.error "Ciphertext must be 16 bytes long."

/-- `AES(key).encrypt(pt)`. -/
def AES_encrypt (key pt : List Nat) : Except String (List Nat) :=
  (AES_mk key).bind (fun ks => aesEncryptBlock ks pt)

/-- `AES(key).decrypt(ct)`. -/
def AES_decrypt (key ct : List Nat) : Except String (List Nat) :=
  (AES_mk key).bind (fun ks => aesDecryptBlock ks ct)

theorem roundKeysOf_WF {ks : List Nat} (hmod : ks.length % 16 = 0)
    (hb : ∀ b ∈ ks, b < 256) : ∀ k ∈ roundKeysOf ks, WFstate k := by
  intro k hk
  obtain ⟨i, hi, rfl⟩ := List.mem_map.mp hk
  have hiR : i < (ks.length + 15) / 16 := List.mem_range.mp hi
  apply WFstate_toMatrix
  · simp only [List.length_take, List.length_drop]
    omega
  · intro b hbm
    exact hb b (List.mem_of_mem_drop (List.mem_of_mem_take hbm))

theorem WFstate_encryptState (rks : List (List (List Nat)))
    (s : List (List Nat)) (hks : ∀ k ∈ rks, WFstate k) (hs : WFstate s) :
    WFstate (encryptState rks s) := by
  cases rks with
  | nil => exact hs
  | cons k0 rest =>
    have hk0 := hks k0 (List.mem_cons_self k0 rest)
    have hmid : ∀ k ∈ rest.dropLast, WFstate k := fun k hk =>
      hks k (List.mem_cons_of_mem k0 ((List.dropLast_sublist rest).subset hk))
    have hlast := hks _ (List.getLastD_mem_cons rest k0)
    exact WFstate_add_round_key (WFstate_shift_rows (WFstate_sub_bytes
      (WFstate_foldl_encRound _ _ (WFstate_add_round_key hs hk0) hmid))) hlast

/-! ## Claim C1: AES round-trip -/

/-- C1: for every valid AES key (16, 24, or 32 bytes) and every 16-byte
block `P`, decrypting the encryption of `P` with the same AES instance
returns `P`. -/
theorem AES_decrypt_AES_encrypt (key pt : List Nat)
    (hkey : key.length = 16 ∨ key.length = 24 ∨ key.length = 32)
    (hkb : ∀ b ∈ key, b < 256) (hpt : pt.length = 16)
    (hptb : ∀ b ∈ pt, b < 256) :
    (AES_encrypt key pt).bind (AES_decrypt key) = Except.ok pt := by
  obtain ⟨ks, hks, hmod, hksb⟩ := expand_key_ok key hkey hkb
  have hWFkeys : ∀ k ∈ roundKeysOf ks, WFstate k := roundKeysOf_WF hmod hksb
  have hWFpt : WFstate (toMatrix pt) := WFstate_toMatrix hpt hptb
  have hWFenc : WFstate (encryptState (roundKeysOf ks) (toMatrix pt)) :=
    WFstate_encryptState _ _ hWFkeys hWFpt
  have hmk : AES_mk key = Except.ok ks := by
    unfold AES_mk
    rw [if_pos hkey]
    exact hks
  unfold AES_encrypt AES_decrypt aesEncryptBlock aesDecryptBlock
  rw [hmk]
  simp only [Except.bind]
  rw [if_pos hpt]
  simp only [Except.bind]
  rw [if_pos (unloadState_length hWFenc)]
  rw [toMatrix_unloadState hWFenc]
  rw [state_roundtrip _ _ hWFkeys hWFpt]
  rw [unloadState_toMatrix hpt]

/-- Witness for C1, at the concrete scenario from the specification:
key = 32 bytes of `0x01`, plaintext = 16 zero bytes. -/
theorem AES_decrypt_AES_encrypt_witness :
    (AES_encrypt
        [1, 1, 1, 1, 1, 1, 1, 1, 1, 1, 1, 1, 1, 1, 1, 1,
         1, 1, 1, 1, 1, 1, 1, 1, 1, 1, 1, 1, 1, 1, 1, 1]
        [0, 0, 0, 0, 0, 0, 0, 0, 0, 0, 0, 0, 0, 0, 0, 0]).bind
      (AES_decrypt
        [1, 1, 1, 1, 1, 1, 1, 1, 1, 1, 1, 1, 1, 1, 1, 1,
         1, 1, 1, 1, 1, 1, 1, 1, 1, 1, 1, 1, 1, 1, 1, 1]) =
    Except.ok [0, 0, 0, 0, 0, 0, 0, 0, 0, 0, 0, 0, 0, 0, 0, 0] :=
  AES_decrypt_AES_encrypt _ _ (by decide) (by decide) (by decide) (by decide)

/-! ## Claim C5: the state layout is row-major, not column-major -/

/-- C5 counterexample: the claim says byte `i` of the block occupies row
`i % 4` and column `i / 4` (column-major).  For the block
`[0, 1, ..., 15]` and `i = 1` that position holds byte `4`, not byte `1`:
the code loads the state row-major. -/
theorem state_layout_counterexample :
    getRC (toMatrix [0, 1, 2, 3, 4, 5, 6, 7, 8, 9, 10, 11, 12, 13, 14, 15])
        (1 % 4) (1 / 4) = 4 ∧
    List.getD [0, 1, 2, 3, 4, 5, 6, 7, 8, 9, 10, 11, 12, 13, 14, 15] 1 0 = 1 ∧
    (4 : Nat) ≠ 1 := by
  refine ⟨rfl, rfl, by omega⟩

/-- C5 amended: byte `i` of the block occupies row `i / 4` and column
`i % 4` (row-major), so `shift_rows`, which rotates row `r` left by `r`,
acts on the four contiguous bytes `block[4r .. 4r+3]`. -/
theorem state_layout_row_major (block : List Nat) (hlen : block.length = 16) :
    (∀ i, i < 16 →
      getRC (toMatrix block) (i / 4) (i % 4) = block.getD i 0) ∧
    (∀ r, r < 4 → (shift_rows (toMatrix block)).getD r [] =
      ((block.drop (4 * r)).take 4).drop r ++
        ((block.drop (4 * r)).take 4).take r) := by
  obtain ⟨b0, b1, b2, b3, b4, b5, b6, b7, b8, b9, b10, b11, b12, b13, b14,
    b15, rfl⟩ := list_eq_sixteen hlen
  constructor
  · intro i hi
    interval_cases i <;> rfl
  · intro r hr
    interval_cases r <;> rfl

/-- Witness for C5 (amended) at the block `[0, 1, ..., 15]`, `i = 9`. -/
theorem state_layout_row_major_witness :
    getRC (toMatrix [0, 1, 2, 3, 4, 5, 6, 7, 8, 9, 10, 11, 12, 13, 14, 15])
      (9 / 4) (9 % 4) =
    List.getD [0, 1, 2, 3, 4, 5, 6, 7, 8, 9, 10, 11, 12, 13, 14, 15] 9 0 :=
  (state_layout_row_major _ (by decide)).1 9 (by decide)

/-! ## Claim C2: key-schedule exactness -/

set_option maxRecDepth 100000 in
/-- C2: `expand_key` applied to the 16-byte key `00 01 02 ... 0f` yields
exactly the published 176-byte expanded schedule, and likewise reproduces
the published fixed key-schedule test vectors for the other 16-byte key and
the 24-byte and 32-byte keys, byte for byte. -/
theorem expand_key_matches_published_vectors :
    expand_key (ksVec128b.take 16) = Except.ok ksVec128b ∧
    expand_key (ksVec128a.take 16) = Except.ok ksVec128a ∧
    expand_key (ksVec192.take 24) = Except.ok ksVec192 ∧
    expand_key (ksVec256.take 32) = Except.ok ksVec256 :=
  ⟨rfl, rfl, rfl, rfl⟩

/-! ## Claim C10: zero rounds certify anything that survives trial division -/

theorem tableCheck_eq_none {p : Nat} {l : List Nat}
    (h : ∀ n ∈ l, p ≠ n ∧ p % n ≠ 0) : tableCheck p l = none := by
  induction l with
  | nil => rfl
  | cons n rest ih =>
    obtain ⟨hne, hmod⟩ := h n (List.mem_cons_self n rest)
    simp only [tableCheck, if_neg hne, if_neg hmod]
    exact ih fun m hm => h m (List.mem_cons_of_mem n hm)

/-- C10: for every `p ≥ 2` that is neither equal to nor divisible by any of
the 25 table primes, `miller_rabin(p, 0)` returns true: with zero rounds the
witness loop never runs, so any such number — prime or composite — is
certified as probably prime. -/
theorem millerRabin_zero_rounds_true (p : Nat) (h2 : 2 ≤ p)
    (htable : ∀ n ∈ PRIMES, p ≠ n ∧ p % n ≠ 0) :
    millerRabinWith p [] = true := by
  unfold millerRabinWith
  rw [if_neg (by omega), tableCheck_eq_none htable]
  rfl

/-- Witness for C10 at the composite input `10403 = 101 · 103`. -/
theorem millerRabin_zero_rounds_true_witness :
    (2 ≤ 10403 ∧ ∀ n ∈ PRIMES, 10403 ≠ n ∧ 10403 % n ≠ 0) ∧
    millerRabinWith 10403 [] = true :=
  ⟨⟨by decide, by decide⟩,
    millerRabin_zero_rounds_true 10403 (by decide) (by decide)⟩

/-! ## Claims C7 and C8: `random_prime` output characterisation and failure
modes -/

theorem randomPrimeLoop_ok (f : Nat → Nat × List Nat) :
    ∀ fuel idx r, randomPrimeLoop f idx fuel = Except.ok r →
      ∃ i, r = 2 * (f i).1 + 1 ∧ millerRabinWith r ((f i).2) = true := by
  intro fuel
  induction fuel with
  | zero => intro idx r h; simp [randomPrimeLoop] at h
  | succ n ih =>
    intro idx r h
    simp only [randomPrimeLoop] at h
    by_cases hm : millerRabinWith (2 * (f idx).1 + 1) ((f idx).2) = true
    · rw [if_pos hm] at h
      exact ⟨idx, by cases h; exact ⟨rfl, hm⟩⟩
    · rw [if_neg hm] at h
      exact ih (idx + 1) r h

/-- C7: for every `length ≥ 4` and every outcome of the random draws, any
value returned by `random_prime(length, rounds, maxRetries)` is of the form
`2·sample + 1` for a sample drawn in `[2^(length-2), 2^(length-1) - 1]`;
hence it is odd, lies in `[2^(length-1) + 1, 2^length - 1]`, and passes
`miller_rabin` with the given round count. -/
theorem random_prime_ok_characterisation
    (length millerRounds maxRetries : Nat) (f : Nat → Nat × List Nat)
    (hlen : 4 ≤ length) (hf : DrawsValid length millerRounds f) (r : Nat)
    (h : random_prime length millerRounds maxRetries f = Except.ok r) :
    (∃ s, 2 ^ (length - 2) ≤ s ∧ s ≤ 2 ^ (length - 1) - 1 ∧ r = 2 * s + 1) ∧
    r % 2 = 1 ∧ 2 ^ (length - 1) + 1 ≤ r ∧ r ≤ 2 ^ length - 1 ∧
    ∃ bases, bases.length = millerRounds ∧ (∀ a ∈ bases, 1 ≤ a ∧ a < r) ∧
      millerRabinWith r bases = true := by
  unfold random_prime at h
  rw [if_neg (by omega)] at h
  obtain ⟨i, hr, hmr⟩ := randomPrimeLoop_ok f maxRetries 0 r h
  obtain ⟨hlo, hhi, hlenb, hbase⟩ := hf i
  have hp1 : 2 ^ (length - 1) = 2 * 2 ^ (length - 2) := by
    have : length - 1 = (length - 2) + 1 := by omega
    rw [this, pow_succ]; ring
  have hp2 : 2 ^ length = 2 * 2 ^ (length - 1) := by
    have : length = (length - 1) + 1 := by omega
    rw [this, pow_succ]
    have : length - 1 + 1 - 1 = length - 1 := by omega
    rw [this]; ring
  have hpos : 0 < 2 ^ (length - 2) := Nat.pos_pow_of_pos _ (by omega)
  refine ⟨⟨(f i).1, hlo, hhi, hr⟩, by omega, by omega, by omega,
    (f i).2, hlenb, ?_, hr ▸ hmr⟩
  intro a ha
  have := hbase a ha
  omega

/-- Witness for C7: `length = 4`, zero rounds, stream constantly drawing the
sample `5` (candidate `11`, accepted immediately because `11` is in the
trial-division table). -/
theorem random_prime_ok_characterisation_witness :
    (4 ≤ 4 ∧ DrawsValid 4 0 (fun _ => (5, [])) ∧
      random_prime 4 0 7 (fun _ => (5, [])) = Except.ok 11) ∧
    ((∃ s, 2 ^ 2 ≤ s ∧ s ≤ 2 ^ 3 - 1 ∧ 11 = 2 * s + 1) ∧
      11 % 2 = 1 ∧ 2 ^ 3 + 1 ≤ 11 ∧ 11 ≤ 2 ^ 4 - 1 ∧
      ∃ bases : List Nat, bases.length = 0 ∧ (∀ a ∈ bases, 1 ≤ a ∧ a < 11) ∧
        millerRabinWith 11 bases = true) := by
  have hf : DrawsValid 4 0 (fun _ => (5, ([] : List Nat))) := by
    intro i
    exact ⟨by norm_num, by norm_num, rfl, by simp⟩
  exact ⟨⟨le_rfl, hf, rfl⟩,
    random_prime_ok_characterisation 4 0 7 (fun _ => (5, [])) le_rfl hf 11 rfl⟩

theorem randomPrimeLoop_exhaust (f : Nat → Nat × List Nat) :
    ∀ fuel idx,
      (∀ j, j < fuel →
        millerRabinWith (2 * (f (idx + j)).1 + 1) ((f (idx + j)).2) = false) →
      randomPrimeLoop f idx fuel =
        Except.error "Could not find a random prime within the retry limit." := by
  intro fuel
  induction fuel with
  | zero => intro idx _; rfl
  | succ n ih =>
    intro idx h
    have h0 := h 0 (by omega)
    simp only [Nat.add_zero] at h0
    simp only [randomPrimeLoop, h0, if_false, Bool.false_eq_true]
    exact ih (idx + 1) fun j hj => by
      have := h (j + 1) (by omega)
      rwa [show idx + (j + 1) = idx + 1 + j by omega] at this

/-- C8: `random_prime` fails with the invalid-argument error whenever the
requested bit length is less than 4 (in particular for length 3), and when
the first `maxRetries` sampled candidates all fail the primality test it
fails with the retry-exhausted error: the candidate loop inspects at most
the draws of the first `maxRetries` attempts. -/
theorem random_prime_failure_modes
    (length millerRounds maxRetries : Nat) (f : Nat → Nat × List Nat) :
    (length < 4 →
      random_prime length millerRounds maxRetries f =
        Except.error "Length must be at least 4.") ∧
    (random_prime 3 millerRounds maxRetries f =
      Except.error "Length must be at least 4.") ∧
    (4 ≤ length →
      (∀ i, i < maxRetries →
        millerRabinWith (2 * (f i).1 + 1) ((f i).2) = false) →
      random_prime length millerRounds maxRetries f =
        Except.error "Could not find a random prime within the retry limit.") := by
  refine ⟨fun h => ?_, ?_, fun h4 hall => ?_⟩
  · unfold random_prime; rw [if_pos h]
  · rfl
  · unfold random_prime
    rw [if_neg (by omega)]
    exact randomPrimeLoop_exhaust f maxRetries 0 fun j hj => by
      have := hall j hj
      simpa using this

/-- Witness for C8: with every candidate `9 = 3·3` (rejected by trial
division), a budget of 2 retries is exhausted; and length 3 is rejected. -/
theorem random_prime_failure_modes_witness :
    random_prime 3 5 2 (fun _ => (4, [])) =
      Except.error "Length must be at least 4." ∧
    random_prime 4 5 2 (fun _ => (4, [])) =
      Except.error "Could not find a random prime within the retry limit." :=
  ⟨(random_prime_failure_modes 3 5 2 (fun _ => (4, []))).2.1,
    (random_prime_failure_modes 4 5 2 (fun _ => (4, []))).2.2 (by decide)
      (fun i _ => by decide)⟩

/-! ## Claim C4: the `_encrypt` precondition -/

/-- C4 counterexample: the claim says encryption requires `0 < m < n` and
fails with an invalid-argument error otherwise, in particular at `m = n`.
The code only rejects `m > n`: with the key `(n, e, d) = (15, 3, 3)`, both
`m = n = 15` and `m = 0` are accepted and encrypted successfully. -/
theorem rsaEncrypt_boundary_counterexample :
    rsaEncrypt ⟨15, 3, 3⟩ 15 = Except.ok 0 ∧
    rsaEncrypt ⟨15, 3, 3⟩ 0 = Except.ok 0 := ⟨rfl, rfl⟩

/-- C4 amended: for every RSA key with positive modulus, `_encrypt` fails
with the invalid-argument error `"Message too large for encryption."`
exactly when `m > n`; for every `m ≤ n` (in particular every `0 < m < n`,
but also `m = 0` and `m = n`) it succeeds and returns `m ^ e mod n`. -/
theorem rsaEncrypt_boundary (k : RSAkey) (m : Nat) (hn : 0 < k.n) :
    (k.n < m →
      rsaEncrypt k m = Except.error "Message too large for encryption.") ∧
    (m ≤ k.n → rsaEncrypt k m = Except.ok (m ^ k.e % k.n)) := by
  constructor
  · intro h
    unfold rsaEncrypt
    rw [if_pos h]
  · intro h
    unfold rsaEncrypt
    rw [if_neg (by omega), powMod_eq m k.e k.n hn]

/-- Witness for C4 (amended) at `(n, e, d) = (15, 3, 3)`, `m = 7`. -/
theorem rsaEncrypt_boundary_witness :
    rsaEncrypt ⟨15, 3, 3⟩ 7 = Except.ok (7 ^ 3 % 15) :=
  (rsaEncrypt_boundary ⟨15, 3, 3⟩ 7 (by decide)).2 (by decide)

/-! ## Claim C9: serialization round-trip (`to_bytes` / `from_bytes`) -/

/-- `bytes.replace(b'\x00', b'\x00\x01')`: byte-stuff every zero byte
(`to_bytes` in `rsa.py`). -/
def stuff : List Nat → List Nat
  | [] => []
  | 0 :: rest => 0 :: 1 :: stuff rest
  | (b+1) :: rest => (b+1) :: stuff rest

def unstuff : List Nat → List Nat
  | [] => []
  | 0 :: 1 :: rest => 0 :: unstuff rest
  | b :: rest => b :: unstuff rest

def hasDelim : List Nat → Bool
  | [] => false
  | [_] => false
  | a :: b :: rest => if a = 0 ∧ b = 255 then true else hasDelim (b :: rest)

def splitD : List Nat → List (List Nat)
  | [] => [[]]
  | 0 :: 255 :: rest => [] :: splitD rest
  | b :: rest =>
    match splitD rest with
    | [] => [[b]]
    | l :: ls => (b :: l) :: ls

theorem unstuff_stuff (l : List Nat) : unstuff (stuff l) = l := by
  induction l with
  | nil => rfl
  | cons b rest ih =>
    match b with
    | 0 => simp [stuff, unstuff, ih]
    | b+1 => simp [stuff, unstuff, ih]

theorem hasDelim_tail {b : Nat} {rest : List Nat}
    (h : hasDelim (b :: rest) = false) : hasDelim rest = false := by
  cases rest with
  | nil => rfl
  | cons c tl =>
    simp only [hasDelim] at h
    split at h
    · exact absurd h (by simp)
    · exact h

theorem hasDelim_head {b c : Nat} {tl : List Nat}
    (h : hasDelim (b :: c :: tl) = false) : ¬(b = 0 ∧ c = 255) := by
  simp only [hasDelim] at h
  split at h
  · exact absurd h (by simp)
  · next hcond => exact hcond

theorem hasDelim_cons_of (a : Nat) (l : List Nat) (h : hasDelim l = false)
    (h2 : a ≠ 0 ∨ l.head? ≠ some 255) : hasDelim (a :: l) = false := by
  cases l with
  | nil => rfl
  | cons b tl =>
    have hb : ¬(a = 0 ∧ b = 255) := by
      rcases h2 with h2 | h2
      · exact fun hc => h2 hc.1
      · exact fun hc => h2 (by rw [List.head?_cons, hc.2])
    simp only [hasDelim, if_neg hb]
    exact h

theorem hasDelim_stuff (l : List Nat) : hasDelim (stuff l) = false := by
  induction l with
  | nil => rfl
  | cons b rest ih =>
    match b with
    | 0 =>
      show hasDelim (0 :: 1 :: stuff rest) = false
      simp only [hasDelim, if_neg (by omega : ¬((0:Nat) = 0 ∧ (1:Nat) = 255))]
      exact hasDelim_cons_of 1 _ ih (Or.inl one_ne_zero)
    | b+1 =>
      show hasDelim ((b+1) :: stuff rest) = false
      exact hasDelim_cons_of (b+1) _ ih (Or.inl (Nat.succ_ne_zero b))

theorem splitD_no_delim (A : List Nat) (h : hasDelim A = false) :
    splitD A = [A] := by
  induction A with
  | nil => rfl
  | cons b rest ih =>
    cases rest with
    | nil =>
      match b with
      | 0 => rfl
      | b+1 => rfl
    | cons c tl =>
      have hnc := hasDelim_head h
      rw [splitD.eq_3 b (c :: tl)
        (fun r1 hb hr => hnc ⟨hb, (List.cons.inj hr).1⟩)]
      rw [ih (hasDelim_tail h)]

theorem splitD_append (A R : List Nat) (h : hasDelim A = false) :
    splitD (A ++ 0 :: 255 :: R) = A :: splitD R := by
  induction A with
  | nil => rfl
  | cons b rest ih =>
    cases rest with
    | nil =>
      rw [List.cons_append, List.nil_append]
      rw [splitD.eq_3 b (0 :: 255 :: R)
        (fun r1 _ hr => absurd (List.cons.inj hr).1 (by omega))]
      rw [show splitD (0 :: 255 :: R) = [] :: splitD R from rfl]
    | cons c tl =>
      have hnc := hasDelim_head h
      rw [List.cons_append]
      rw [splitD.eq_3 b ((c :: tl) ++ 0 :: 255 :: R)
        (fun r1 hb hr => hnc ⟨hb, (List.cons.inj (List.cons_append c tl _ ▸ hr)).1⟩)]
      rw [ih (hasDelim_tail h)]

/-- `int.from_bytes(v, 'big', signed=False)`. -/
def beToNat (l : List Nat) : Nat := l.foldl (fun acc b => acc * 256 + b) 0

/-- Big-endian encoding of `n` into exactly `k` bytes (the recursion of
`int.to_bytes(k, 'big')`). -/
def natToBEAux : Nat → Nat → List Nat
  | 0, _ => []
  | k+1, n => natToBEAux k (n / 256) ++ [n % 256]

/-- `n.bit_length()` (with fuel; `bitLenAux n n` is exact for every `n`). -/
def bitLenAux : Nat → Nat → Nat
  | 0, _ => 0
  | fuel+1, n => if n = 0 then 0 else bitLenAux fuel (n / 2) + 1

/-- `n.bit_length()`: the number of bits of `n`, `0` for `n = 0`. -/
def bitLen (n : Nat) : Nat := bitLenAux n n

/-- `n.to_bytes((n.bit_length() + 7) // 8, 'big', signed=False)`:
big-endian minimal-length encoding (empty for `n = 0`). -/
def natToBE (n : Nat) : List Nat := natToBEAux ((bitLen n + 7) / 8) n

theorem bitLenAux_lt (fuel : Nat) :
    ∀ n, n ≤ fuel → n < 2 ^ bitLenAux fuel n := by
  induction fuel with
  | zero => intro n hn; interval_cases n; simp [bitLenAux]
  | succ f ih =>
    intro n hn
    by_cases h0 : n = 0
    · subst h0; simp [bitLenAux]
    · have h2 : n / 2 ≤ f := by omega
      have := ih (n / 2) h2
      simp only [bitLenAux, if_neg h0, pow_succ]
      omega

theorem lt_pow_bitLen (n : Nat) : n < 2 ^ bitLen n := bitLenAux_lt n n le_rfl

theorem beToNat_append (xs : List Nat) (b : Nat) :
    beToNat (xs ++ [b]) = 256 * beToNat xs + b := by
  unfold beToNat
  rw [List.foldl_append]
  simp [Nat.mul_comm]

theorem beToNat_natToBEAux (k : Nat) :
    ∀ n, n < 256 ^ k → beToNat (natToBEAux k n) = n := by
  induction k with
  | zero => intro n hn; interval_cases n; rfl
  | succ k ih =>
    intro n hn
    simp only [natToBEAux, beToNat_append]
    rw [ih (n / 256) (by
      have : 256 ^ (k + 1) = 256 ^ k * 256 := pow_succ 256 k
      omega)]
    omega

theorem beToNat_natToBE (n : Nat) : beToNat (natToBE n) = n := by
  apply beToNat_natToBEAux
  calc n < 2 ^ bitLen n := lt_pow_bitLen n
  _ ≤ 2 ^ (8 * ((bitLen n + 7) / 8)) := Nat.pow_le_pow_right (by omega) (by omega)
  _ = 256 ^ ((bitLen n + 7) / 8) := by rw [pow_mul]; norm_num

def rsaToBytes (k : RSAkey) : List Nat :=
  stuff (natToBE k.n) ++ 0 :: 255 :: (stuff (natToBE k.e) ++ 0 :: 255 :: stuff (natToBE k.d))

def rsaFromBytes (b : List Nat) : Except String RSAkey :=
  match (splitD b).map (fun v => beToNat (unstuff v)) with
  | v0 :: v1 :: v2 :: _ => Except.ok ⟨v0, v1, v2⟩
  | _ => Except.error "Invalid RSA key bytes."

def pubToBytes (k : RSApubkey) : List Nat :=
  stuff (natToBE k.n) ++ 0 :: 255 :: stuff (natToBE k.e)

def pubFromBytes (b : List Nat) : Except String RSApubkey :=
  match (splitD b).map (fun v => beToNat (unstuff v)) with
  | v0 :: v1 :: _ => Except.ok ⟨v0, v1⟩
  | _ => Except.error "Invalid RSA public key bytes."

theorem serialization_roundtrip (n e d : Nat) :
    rsaFromBytes (rsaToBytes ⟨n, e, d⟩) = Except.ok ⟨n, e, d⟩ ∧
    pubFromBytes (pubToBytes ⟨n, e⟩) = Except.ok ⟨n, e⟩ := by
  constructor
  · unfold rsaFromBytes rsaToBytes
    rw [splitD_append _ _ (hasDelim_stuff _), splitD_append _ _ (hasDelim_stuff _),
      splitD_no_delim _ (hasDelim_stuff _)]
    simp [unstuff_stuff, beToNat_natToBE]
  · unfold pubFromBytes pubToBytes
    rw [splitD_append _ _ (hasDelim_stuff _), splitD_no_delim _ (hasDelim_stuff _)]
    simp [unstuff_stuff, beToNat_natToBE]

/-! ## Claim C3: the RSA round-trip over `RSAkey.generate` -/

/-- The acceptances of `miller_rabin(p, rounds)`: some sequence of `rounds`
random base draws (each drawn as `secrets.randbelow(p-1) + 1 ∈ [1, p-1]`)
makes the test return true. -/
def MillerOutcome (rounds p : Nat) : Prop :=
  ∃ bases : List Nat, bases.length = rounds ∧
    (∀ a ∈ bases, 1 ≤ a ∧ a < p) ∧ millerRabinWith p bases = true

/-- The possible return values of `random_prime(length, rounds, _)`
(cf. `random_prime_ok_characterisation`): an accepted candidate
`2·sample + 1` with the sample drawn in `[2^(length-2), 2^(length-1)-1]`. -/
def RandomPrimeOutcome (length rounds p : Nat) : Prop :=
  4 ≤ length ∧ ∃ s, 2 ^ (length - 2) ≤ s ∧ s ≤ 2 ^ (length - 1) - 1 ∧
    p = 2 * s + 1 ∧ MillerOutcome rounds p

/-- One possible execution of `RSAkey.generate(length, e0, rounds, _)`,
unbundled over the two accepted candidates `p` and `q`: both are possible
`random_prime(length // 2, rounds, _)` returns with `q ≠ p`; `n = p·q`;
the exponent is the given `e0` when present (with
`gcd(e, phi) = 1` required, else the code raises) and otherwise itself a
`random_prime` outcome coprime to `phi`; and `d = pow(e, -1, phi)` is the
unique modular inverse of `e` in `[0, phi)`. -/
def GenerateOutcomeWith (length : Nat) (e0 : Option Nat) (rounds : Nat)
    (p q : Nat) (k : RSAkey) : Prop :=
  RandomPrimeOutcome (length / 2) rounds p ∧
  RandomPrimeOutcome (length / 2) rounds q ∧ q ≠ p ∧
  k.n = p * q ∧
  (match e0 with
   | some e' => k.e = e' ∧ Nat.gcd k.e ((p - 1) * (q - 1)) = 1
   | none => RandomPrimeOutcome (length / 2) rounds k.e ∧
       Nat.gcd k.e ((p - 1) * (q - 1)) = 1) ∧
  (k.d * k.e) % ((p - 1) * (q - 1)) = 1 % ((p - 1) * (q - 1)) ∧
  k.d < (p - 1) * (q - 1)

/-- C3 counterexample: the claim quantifies over **every** outcome of the
random draws, but `random_prime` only guarantees a Miller–Rabin pass, and
the base draw `1` (possible, since bases are drawn from `[1, p-1]`) is a
strong liar for every candidate that survives trial division.  With
base-1 draws, `generate(28, 5, 1, _)` can accept the composite
`p = 10403 = 101 · 103` together with the prime `q = 8219`, producing the
key `(n, e, d) = (85502257, 5, 68386909)`; decrypting the encryption of
`m = 2` then yields `19166710 ≠ 2`. -/
theorem rsa_generate_roundtrip_counterexample :
    GenerateOutcomeWith 28 (some 5) 1 10403 8219 ⟨85502257, 5, 68386909⟩ ∧
    (0 : Nat) < 2 ∧ 2 < 85502257 ∧
    (rsaEncrypt ⟨85502257, 5, 68386909⟩ 2).map
      (rsaDecrypt ⟨85502257, 5, 68386909⟩) = Except.ok 19166710 ∧
    (19166710 : Nat) ≠ 2 := by
  refine ⟨⟨⟨by norm_num, 5201, by norm_num, by norm_num, by norm_num,
      [1], rfl, by decide, by decide⟩,
    ⟨by norm_num, 4109, by norm_num, by norm_num, by norm_num,
      [1], rfl, by decide, by decide⟩,
    by omega, rfl, ⟨rfl, by decide⟩, by decide, by decide⟩,
    by omega, by omega, by rfl, by omega⟩

theorem zmod_pow_mul_card_sub_one_add_one (p : Nat) (hp : p.Prime) (k : Nat)
    (x : ZMod p) : x ^ (k * (p - 1) + 1) = x := by
  haveI : Fact p.Prime := ⟨hp⟩
  rcases eq_or_ne x 0 with rfl | hx
  · rw [zero_pow]
    omega
  · rw [pow_add, pow_one, Nat.mul_comm k (p - 1), pow_mul,
      ZMod.pow_card_sub_one_eq_one hx, one_pow, one_mul]

theorem rsa_pow_modEq_self (p q : Nat) (hp : p.Prime) (hq : q.Prime)
    (hpq : p ≠ q) (e d m : Nat)
    (hed : (d * e) % ((p - 1) * (q - 1)) = 1 % ((p - 1) * (q - 1))) :
    m ^ (e * d) % (p * q) = m % (p * q) := by
  set phi := (p - 1) * (q - 1) with hphi
  have hp2 := hp.two_le
  have hq2 := hq.two_le
  have hphi2 : 2 ≤ phi := by
    rcases Nat.lt_or_ge phi 2 with h | h
    · interval_cases phi
      · exfalso
        rcases Nat.mul_eq_zero.mp (by omega : (p - 1) * (q - 1) = 0) with h' | h' <;>
          omega
      · have h1 : p - 1 = 1 :=
          Nat.eq_one_of_mul_eq_one_right (by omega : (p - 1) * (q - 1) = 1)
        have h2 : q - 1 = 1 :=
          Nat.eq_one_of_mul_eq_one_left (by omega : (p - 1) * (q - 1) = 1)
        exact absurd (by omega : p = q) hpq
    · exact h
  have h1phi : 1 % phi = 1 := Nat.mod_eq_of_lt (by omega)
  rw [h1phi] at hed
  have hde : d * e = phi * (d * e / phi) + 1 := by
    have := Nat.div_add_mod (d * e) phi
    omega
  set k := d * e / phi with hk
  have hmodp : m ^ (e * d) ≡ m [MOD p] := by
    have hx : ((m : ZMod p)) ^ (k * (q - 1) * (p - 1) + 1) = (m : ZMod p) := by
      rw [show k * (q - 1) * (p - 1) + 1 = (k * (q - 1)) * (p - 1) + 1 from rfl]
      exact zmod_pow_mul_card_sub_one_add_one p hp (k * (q - 1)) _
    have hexp : e * d = k * (q - 1) * (p - 1) + 1 := by
      rw [Nat.mul_comm e d, hde, hphi]
      ring
    rw [← ZMod.natCast_eq_natCast_iff]
    push_cast
    rw [hexp]
    exact hx
  have hmodq : m ^ (e * d) ≡ m [MOD q] := by
    have hx : ((m : ZMod q)) ^ (k * (p - 1) * (q - 1) + 1) = (m : ZMod q) :=
      zmod_pow_mul_card_sub_one_add_one q hq (k * (p - 1)) _
    have hexp : e * d = k * (p - 1) * (q - 1) + 1 := by
      rw [Nat.mul_comm e d, hde, hphi]
      ring
    rw [← ZMod.natCast_eq_natCast_iff]
    push_cast
    rw [hexp]
    exact hx
  have hco : Nat.Coprime p q := (Nat.coprime_primes hp hq).mpr hpq
  exact (Nat.modEq_and_modEq_iff_modEq_mul hco).mp ⟨hmodp, hmodq⟩

/-- C3 amended: for every key pair that `RSAkey.generate` can produce
**whose two accepted candidates `p` and `q` are in fact prime** (the code
only checks probable primality, so this is an added hypothesis — see the
counterexample), and every `0 < m < n`, decrypting the encryption of `m`
returns `m`. -/
theorem rsa_generate_roundtrip (length : Nat) (e0 : Option Nat) (rounds : Nat)
    (p q : Nat) (k : RSAkey)
    (hgen : GenerateOutcomeWith length e0 rounds p q k)
    (hp : p.Prime) (hq : q.Prime) (m : Nat) (hm0 : 0 < m) (hmn : m < k.n) :
    (rsaEncrypt k m).map (rsaDecrypt k) = Except.ok m := by
  obtain ⟨_, _, hqp, hn, _, hd1, _⟩ := hgen
  have hp2 := hp.two_le
  have hq2 := hq.two_le
  have hnpos : 0 < k.n := by omega
  unfold rsaEncrypt
  rw [if_neg (by omega)]
  simp only [Except.map]
  unfold rsaDecrypt
  rw [powMod_eq _ _ _ hnpos, powMod_eq _ _ _ hnpos, ← Nat.pow_mod, ← pow_mul]
  have hcore := rsa_pow_modEq_self p q hp hq (fun h => hqp h.symm) k.e k.d m hd1
  rw [← hn] at hcore
  rw [hcore, Nat.mod_eq_of_lt hmn]

/-- Witness for C3 (amended): `generate(8, 7, 0, _)` can produce
`p = 11`, `q = 13`, key `(143, 7, 103)`; decrypting the encryption of
`m = 2` returns `2`. -/
theorem rsa_generate_roundtrip_witness :
    (rsaEncrypt ⟨143, 7, 103⟩ 2).map (rsaDecrypt ⟨143, 7, 103⟩) =
      Except.ok 2 :=
  rsa_generate_roundtrip 8 (some 7) 0 11 13 ⟨143, 7, 103⟩
    ⟨⟨by norm_num, 5, by norm_num, by norm_num, by norm_num,
        [], rfl, by decide, by decide⟩,
      ⟨by norm_num, 6, by norm_num, by norm_num, by norm_num,
        [], rfl, by decide, by decide⟩,
      by omega, rfl, ⟨rfl, by decide⟩, by decide, by decide⟩
    (by decide) (by decide) 2 (by decide) (by decide)

/-! ## Claim C6: Miller–Rabin never rejects a prime -/

/-- In `ZMod p`, if `b ^ (2^s·d) = 1` then either `b ^ d = 1` or some
intermediate power `b ^ (2^r·d)` (with `r < s`) equals `-1`: the only square
roots of 1 in a field are `±1`. -/
theorem squares_descent (p : Nat) [Fact p.Prime] (b : ZMod p) :
    ∀ s : Nat, b ^ (2 ^ s * d) = 1 →
      b ^ d = 1 ∨ ∃ r, r < s ∧ b ^ (2 ^ r * d) = -1 := by
  intro s
  induction s with
  | zero => intro h; left; simpa using h
  | succ s ih =>
    intro h
    have hc : b ^ (2 ^ s * d) * b ^ (2 ^ s * d) = 1 := by
      rw [← pow_add]
      rw [show 2 ^ s * d + 2 ^ s * d = 2 ^ (s + 1) * d by ring]
      exact h
    rcases mul_self_eq_one_iff.mp hc with h1 | h1
    · rcases ih h1 with h2 | ⟨r, hr, h2⟩
      · exact Or.inl h2
      · exact Or.inr ⟨r, by omega, h2⟩
    · exact Or.inr ⟨s, by omega, h1⟩


/-- For an odd prime `p` with `p - 1 = 2^s·d` and any base `1 ≤ a < p`, a
Miller–Rabin round can never surface a witness of compositeness. -/
theorem prime_round_passes (p : Nat) (hp : p.Prime) (hp2 : 2 < p)
    (s d : Nat) (hsd : 2 ^ s * d = p - 1)
    (a : Nat) (ha1 : 1 ≤ a) (hap : a < p) :
    a ^ d % p = 1 ∨ ∃ r, r < s ∧ a ^ (2 ^ r * d) % p = p - 1 := by
  haveI : Fact p.Prime := ⟨hp⟩
  have hb : (a : ZMod p) ≠ 0 := by
    rw [Ne, ZMod.natCast_zmod_eq_zero_iff_dvd]
    intro hdvd
    have := Nat.le_of_dvd (by omega) hdvd
    omega
  have hfer : (a : ZMod p) ^ (2 ^ s * d) = 1 := by
    rw [hsd]
    exact ZMod.pow_card_sub_one_eq_one hb
  have hneg : ((p - 1 : Nat) : ZMod p) = -1 := by
    rw [Nat.cast_sub hp.one_le, ZMod.natCast_self, Nat.cast_one, zero_sub]
  rcases squares_descent p (a : ZMod p) s hfer with h | ⟨r, hr, h⟩
  · left
    have : ((a ^ d : Nat) : ZMod p) = ((1 : Nat) : ZMod p) := by push_cast; simpa using h
    have := (ZMod.natCast_eq_natCast_iff _ _ _).mp this
    have h1p : 1 % p = 1 := Nat.mod_eq_of_lt (by omega)
    unfold Nat.ModEq at this
    omega
  · right
    refine ⟨r, hr, ?_⟩
    have : ((a ^ (2 ^ r * d) : Nat) : ZMod p) = ((p - 1 : Nat) : ZMod p) := by
      push_cast
      rw [h, ← hneg]
    have := (ZMod.natCast_eq_natCast_iff _ _ _).mp this
    have hpm : (p - 1) % p = p - 1 := Nat.mod_eq_of_lt (by omega)
    unfold Nat.ModEq at this
    omega


theorem factor2Aux_spec (fuel : Nat) :
    ∀ s n, 0 < n → n ≤ fuel →
      (factor2Aux fuel s n).2 % 2 = 1 ∧
      2 ^ (factor2Aux fuel s n).1 * (factor2Aux fuel s n).2 = 2 ^ s * n := by
  induction fuel with
  | zero => intro s n hn hf; omega
  | succ f ih =>
    intro s n hn hf
    by_cases he : n % 2 = 0
    · have h2 : 0 < n / 2 := by omega
      have h3 : n / 2 ≤ f := by omega
      have := ih (s + 1) (n / 2) h2 h3
      simp only [factor2Aux, if_pos he]
      refine ⟨this.1, ?_⟩
      rw [this.2, pow_succ]
      have : 2 * (n / 2) = n := by omega
      rw [mul_assoc, this]
    · simp only [factor2Aux, if_neg he]
      exact ⟨by omega, by trivial⟩

theorem factor2_spec (n : Nat) (hn : 0 < n) :
    (factor2 n).2 % 2 = 1 ∧ 2 ^ (factor2 n).1 * (factor2 n).2 = n := by
  have := factor2Aux_spec n 0 n hn le_rfl
  unfold factor2
  simpa using this

theorem mrInner_hits (p : Nat) (hp : 0 < p) :
    ∀ count x j, 1 ≤ j → j ≤ count → x ^ (2 ^ j) % p = p - 1 →
      mrInner p count x = true := by
  intro count
  induction count with
  | zero => intro x j h1 h2 _; omega
  | succ c ih =>
    intro x j h1 h2 hx
    simp only [mrInner]
    by_cases hone : powMod x 2 p = p - 1
    · rw [if_pos hone]
    · rw [if_neg hone]
      have hj2 : 2 ≤ j := by
        rcases Nat.lt_or_ge j 2 with h | h
        · exfalso
          have : j = 1 := by omega
          subst this
          rw [powMod_eq x 2 p hp] at hone
          simp only [pow_one, pow_succ, pow_zero, one_mul] at hx
          exact hone (by rw [← hx]; ring_nf)
        · exact h
      apply ih (powMod x 2 p) (j - 1) (by omega) (by omega)
      rw [powMod_eq x 2 p hp, ← Nat.pow_mod]
      rw [← pow_mul]
      rw [show 2 * 2 ^ (j - 1) = 2 ^ j by
        rw [← pow_succ']
        congr 1
        omega]
      exact hx


theorem mrRounds_prime (p : Nat) (hp : p.Prime) (hp2 : 2 < p) (s d : Nat)
    (hsd : 2 ^ s * d = p - 1) :
    ∀ bases, (∀ a ∈ bases, 1 ≤ a ∧ a < p) → mrRounds p s d bases = true := by
  intro bases
  induction bases with
  | nil => intro _; rfl
  | cons a rest ih =>
    intro hb
    obtain ⟨ha1, hap⟩ := hb a (List.mem_cons_self a rest)
    have hrest := fun x hx => hb x (List.mem_cons_of_mem a hx)
    have hpos : 0 < p := by omega
    simp only [mrRounds]
    rcases prime_round_passes p hp hp2 s d hsd a ha1 hap with h | ⟨r, hr, h⟩
    · rw [powMod_eq a d p hpos, if_pos (Or.inl h)]
      exact ih hrest
    · by_cases hfirst : powMod a d p = 1 ∨ powMod a d p = p - 1
      · rw [if_pos hfirst]
        exact ih hrest
      · rw [if_neg hfirst]
        have hr1 : 1 ≤ r := by
          by_contra h0
          have hr0 : r = 0 := by omega
          subst hr0
          simp only [pow_zero, one_mul] at h
          exact hfirst (Or.inr (by rw [powMod_eq a d p hpos]; exact h))
        have hinner : mrInner p (s - 1) (powMod a d p) = true := by
          apply mrInner_hits p hpos (s - 1) _ r hr1 (by omega)
          rw [powMod_eq a d p hpos, ← Nat.pow_mod, ← pow_mul, mul_comm d (2 ^ r)]
          exact h
        rw [hinner]
        simp only [if_true]
        exact ih hrest

theorem tableCheck_none_forall {p : Nat} :
    ∀ l, tableCheck p l = none → ∀ n ∈ l, p ≠ n ∧ p % n ≠ 0 := by
  intro l
  induction l with
  | nil => intro _ n hn; cases hn
  | cons m rest ih =>
    intro h n hn
    simp only [tableCheck] at h
    split at h
    · cases h
    · split at h
      · cases h
      · next hne hmod =>
        rcases List.mem_cons.mp hn with rfl | hn'
        · exact ⟨hne, hmod⟩
        · exact ih h n hn'

theorem tableCheck_prime {p : Nat} (hp : p.Prime) :
    ∀ l : List Nat, (∀ n ∈ l, 2 ≤ n) →
      tableCheck p l = some true ∨ tableCheck p l = none := by
  intro l
  induction l with
  | nil => intro _; right; rfl
  | cons n rest ih =>
    intro h2
    by_cases he : p = n
    · left; simp [tableCheck, he]
    · by_cases hm : p % n = 0
      · exfalso
        have hdvd : n ∣ p := Nat.dvd_of_mod_eq_zero hm
        rcases Nat.Prime.eq_one_or_self_of_dvd hp n hdvd with h1 | h1
        · have := h2 n (List.mem_cons_self n rest)
          omega
        · exact he h1.symm
      · simp only [tableCheck, if_neg he, if_neg hm]
        exact ih fun m hm' => h2 m (List.mem_cons_of_mem n hm')

/-- C6: for every prime `p`, every round count, and every possible sequence
of random base draws (each base drawn as `secrets.randbelow(p-1) + 1`, hence
in `[1, p-1]`), `miller_rabin(p, rounds)` returns true — the test never
wrongly rejects a prime. -/
theorem millerRabin_never_rejects_prime (p : Nat) (hp : p.Prime)
    (bases : List Nat) (hb : ∀ a ∈ bases, 1 ≤ a ∧ a < p) :
    millerRabinWith p bases = true := by
  have hp2 : 2 ≤ p := hp.two_le
  unfold millerRabinWith
  rw [if_neg (by omega)]
  rcases tableCheck_prime hp PRIMES (by decide) with ht | ht
  · rw [ht]
  · rw [ht]
    have hfacts := tableCheck_none_forall PRIMES ht
    have h2 := hfacts 2 (by decide)
    have hp3 : 2 < p := by
      rcases h2 with ⟨hne, _⟩
      omega
    obtain ⟨hd, hsd⟩ := factor2_spec (p - 1) (by omega)
    exact mrRounds_prime p hp hp3 (factor2 (p - 1)).1 (factor2 (p - 1)).2 hsd bases hb


/-- Witness for C6 at the prime `101` with three rounds of base draws. -/
theorem millerRabin_never_rejects_prime_witness :
    Nat.Prime 101 ∧ millerRabinWith 101 [5, 2, 100] = true :=
  ⟨by decide,
    millerRabin_never_rejects_prime 101 (by decide) [5, 2, 100] (by decide)⟩

end LenaCrypt
